import Mathlib

/-!
Verification development for the `notion-sync` repository.

The definitions below are shallow embeddings of the Rust sources:
`src/webhook.rs`, `src/render.rs`, `src/notion.rs`, `src/queue.rs`,
`src/sync.rs`, `src/scheduler.rs` and `src/main.rs`.  External
collaborators (the JSON parser, the HMAC primitive, the RFC-3339 parser,
the YAML dumper, the Notion HTTP API) are taken as parameters of the
embedded functions, exactly at the boundaries where the source calls into
the corresponding crates.  Machine integers that cannot overflow in the
modelled paths (`usize` counters, list lengths) are embedded as `Nat`.
-/

namespace NotionSync

/-! ## JSON values (serde_json::Value) -/

/-- Embedding of `serde_json::Value`.  Numbers are embedded as `Int`;
none of the modelled code paths inspects a fractional part.  Objects are
association lists in insertion order; serde's map lookup is embedded as
first-match lookup (parsed serde maps have unique keys). -/
inductive Json where
  | null
  | bool (b : Bool)
  | num (n : Int)
  | str (s : String)
  | arr (items : List Json)
  | obj (fields : List (String × Json))

/-- First-match lookup in an object's field list (`serde_json::Map::get`). -/
def lookupField : List (String × Json) → String → Option Json
  | [], _ => none
  | (k, v) :: rest, key => if k = key then some v else lookupField rest key

/-- `Value::get(key)`: `Some` only on objects containing the key. -/
def Json.get (j : Json) (key : String) : Option Json :=
  match j with
  | .obj fields => lookupField fields key
  | _ => none

/-- `Value::as_str()`. -/
def Json.asStr : Json → Option String
  | .str s => some s
  | _ => none

/-- Removes every top-level field named `key`; identity on non-objects.
Used to state that a field plays no role in a computation. -/
def Json.removeKey (j : Json) (key : String) : Json :=
  match j with
  | .obj fields => .obj (fields.filter (fun kv => !(kv.1 = key)))
  | other => other

/-! ## Webhook ingress (src/webhook.rs) -/

/-- `extract_page_id` (webhook.rs:102-112): `page_id`, else `data.id`. -/
def extract_page_id (payload : Json) : Option String :=
  match (payload.get "page_id").bind Json.asStr with
  | some s => some s
  | none => ((payload.get "data").bind (fun d => d.get "id")).bind Json.asStr

/-- `extract_database_id` (webhook.rs:123-141): `database_id`, else
`data.database_id`, else `data.parent.database_id`. -/
def extract_database_id (payload : Json) : Option String :=
  match (payload.get "database_id").bind Json.asStr with
  | some s => some s
  | none =>
    match ((payload.get "data").bind (fun d => d.get "database_id")).bind Json.asStr with
    | some s => some s
    | none =>
      (((payload.get "data").bind (fun d => d.get "parent")).bind
        (fun p => p.get "database_id")).bind Json.asStr

/-- `extract_data_source_id` (webhook.rs:143-161): `data_source_id`, else
`data.data_source_id`, else `data.parent.data_source_id`. -/
def extract_data_source_id (payload : Json) : Option String :=
  match (payload.get "data_source_id").bind Json.asStr with
  | some s => some s
  | none =>
    match ((payload.get "data").bind (fun d => d.get "data_source_id")).bind Json.asStr with
    | some s => some s
    | none =>
      (((payload.get "data").bind (fun d => d.get "parent")).bind
        (fun p => p.get "data_source_id")).bind Json.asStr

/-- `extract_event_time` (webhook.rs:182-185): the `timestamp` field, as a
string, run through the RFC-3339 parser (the `time` crate, taken as the
parameter `parseRfc3339`; event times are embedded as integer seconds). -/
def extract_event_time (parseRfc3339 : String → Option Int) (payload : Json) : Option Int :=
  ((payload.get "timestamp").bind Json.asStr).bind parseRfc3339

/-- One nibble of `hex::decode`: accepts `0-9`, `a-f`, `A-F`. -/
def hexDigit (c : Char) : Option Nat :=
  if '0' ≤ c ∧ c ≤ '9' then some (c.toNat - '0'.toNat)
  else if 'a' ≤ c ∧ c ≤ 'f' then some (c.toNat - 'a'.toNat + 10)
  else if 'A' ≤ c ∧ c ≤ 'F' then some (c.toNat - 'A'.toNat + 10)
  else none

/-- `hex::decode` on a character list: fails on odd length or on any
non-hex character; otherwise two characters per output byte. -/
def hexDecodeList : List Char → Option (List Nat)
  | [] => some []
  | [_] => none
  | hi :: lo :: rest =>
    match hexDigit hi, hexDigit lo, hexDecodeList rest with
    | some h, some l, some tail => some ((h * 16 + l) :: tail)
    | _, _, _ => none

/-- `hex::decode` of a string (bytes as `Nat` values < 256). -/
def hexDecode (s : String) : Option (List Nat) :=
  hexDecodeList s.data

/-- `str::trim` as used in webhook.rs:168 (whitespace stripped from both
ends). -/
def rustTrim (s : String) : String :=
  ⟨((s.data.dropWhile Char.isWhitespace).reverse.dropWhile Char.isWhitespace).reverse⟩

/-- `signature.strip_prefix("sha256=").unwrap_or(signature)`
(webhook.rs:171-173). -/
def stripSha256 (s : String) : String :=
  if s.data.take 7 = "sha256=".data then ⟨s.data.drop 7⟩ else s

/-- `verify_signature` (webhook.rs:163-180).  The HMAC-SHA256 primitive of
the `hmac`/`sha2` crates is the parameter `hmacSha256` (key, message ↦
tag); `Mac::verify_slice` passes exactly when the supplied bytes equal the
computed tag.  `header` is the `X-Notion-Signature` value if present. -/
def verify_signature (hmacSha256 : String → List Nat → List Nat)
    (header : Option String) (body : List Nat) (secret : String) : Bool :=
  match header with
  | none => false
  | some raw =>
    let sig := stripSha256 (rustTrim raw)
    match hexDecode sig with
    | none => false
    | some bytes => bytes == hmacSha256 secret body

/-- `DataSourceInfo` (notion.rs:208-213). -/
structure DataSourceInfo where
  id : String
  name : Option String := none
deriving Repr, DecidableEq

/-- The webhook-relevant part of `DatabaseState` (main.rs:36-43). -/
structure DatabaseState where
  id : String
  data_sources : List DataSourceInfo
deriving Repr, DecidableEq

/-- The work the webhook handler spawns (webhook.rs:59, 77, 92): which sync
entry point runs, with which arguments. -/
inductive WebhookAction where
  | syncPageById (page_id : String)
  | scanDataSource (database : DatabaseState) (data_source_id : String)
  | scanDatabase (database : DatabaseState)
deriving Repr, DecidableEq

/-- Observable outcome of `handle_webhook`: HTTP status, whether the body
is the verification ack, and the spawned work (if any). -/
structure WebhookOutcome where
  status : Nat
  ackBody : Bool
  action : Option WebhookAction
deriving Repr, DecidableEq

/-- The id-extraction and dispatch cascade of `handle_webhook`
(webhook.rs:58-99): `page_id` first, then `data_source_id` (binding found
by membership in `data_sources`), then `database_id` (binding found by
id), else 400. -/
def handle_webhook_dispatch (databases : List DatabaseState) (payload : Json) :
    WebhookOutcome :=
  match extract_page_id payload with
  | some pid => ⟨200, false, some (.syncPageById pid)⟩
  | none =>
    match extract_data_source_id payload with
    | some ds =>
      match databases.find? (fun db => db.data_sources.any (fun d => d.id == ds)) with
      | none => ⟨200, false, none⟩
      | some db => ⟨200, false, some (.scanDataSource db ds)⟩
    | none =>
      match extract_database_id payload with
      | some dbid =>
        match databases.find? (fun db => db.id == dbid) with
        | none => ⟨200, false, none⟩
        | some db => ⟨200, false, some (.scanDatabase db)⟩
      | none => ⟨400, false, none⟩

/-- The staleness gate of `handle_webhook` (webhook.rs:45-56) followed by
dispatch: with an extractable event time whose distance from `now` exceeds
`max_age`, respond 200 and do nothing; otherwise dispatch. -/
def handle_webhook_fresh (parseRfc3339 : String → Option Int) (max_age : Nat)
    (now : Int) (databases : List DatabaseState) (payload : Json) : WebhookOutcome :=
  match extract_event_time parseRfc3339 payload with
  | some t =>
    let age := if now ≥ t then now - t else t - now
    if age > (max_age : Int) then ⟨200, false, none⟩
    else handle_webhook_dispatch databases payload
  | none => handle_webhook_dispatch databases payload

/-- The signature gate of `handle_webhook` (webhook.rs:38-43): with no
configured secret the request passes; with one, `verify_signature` must
accept. -/
def handle_webhook_auth (hmacSha256 : String → List Nat → List Nat)
    (webhook_secret : Option String) (header : Option String)
    (body : List Nat) : Bool :=
  match webhook_secret with
  | some secret => verify_signature hmacSha256 header body secret
  | none => true

/-- `handle_webhook` (webhook.rs:17-100).  `parse` is
`serde_json::from_slice` on the raw body bytes; the check order is: parse,
verification token, signature (only with a configured secret), staleness,
dispatch. -/
def handle_webhook (parse : List Nat → Option Json)
    (parseRfc3339 : String → Option Int)
    (hmacSha256 : String → List Nat → List Nat)
    (webhook_secret : Option String) (max_age : Nat)
    (databases : List DatabaseState) (header : Option String)
    (body : List Nat) (now : Int) : WebhookOutcome :=
  match parse body with
  | none => ⟨400, false, none⟩
  | some payload =>
    if ((payload.get "verification_token").bind Json.asStr).isSome then
      ⟨200, true, none⟩
    else if handle_webhook_auth hmacSha256 webhook_secret header body then
      handle_webhook_fresh parseRfc3339 max_age now databases payload
    else ⟨401, false, none⟩

/-! ## Rich text and blocks (src/notion.rs data model) -/

/-- `Annotations` (notion.rs:771-783). -/
structure Annotations where
  bold : Bool := false
  italic : Bool := false
  strikethrough : Bool := false
  underline : Bool := false
  code : Bool := false
deriving Repr, DecidableEq

/-- `RichText` (notion.rs:763-769). -/
structure RichText where
  plain_text : String
  annotations : Option Annotations := none
  href : Option String := none
deriving Repr, DecidableEq

structure RichTextContainer where
  rich_text : List RichText
deriving Repr, DecidableEq

structure ToDoContainer where
  rich_text : List RichText
  checked : Bool
deriving Repr, DecidableEq

structure CodeContainer where
  rich_text : List RichText
  language : Option String := none
deriving Repr, DecidableEq

structure CalloutContainer where
  rich_text : List RichText
deriving Repr, DecidableEq

structure EquationContainer where
  expression : String
deriving Repr, DecidableEq

structure BookmarkContainer where
  url : String
deriving Repr, DecidableEq

structure TitleContainer where
  title : String
deriving Repr, DecidableEq

/-- `TableContainer` (notion.rs:711-716): declared geometry of a table. -/
structure TableContainer where
  table_width : Nat
  has_column_header : Bool
  has_row_header : Bool
deriving Repr, DecidableEq

structure TableRowContainer where
  cells : List (List RichText)
deriving Repr, DecidableEq

structure FileObject where
  url : String
deriving Repr, DecidableEq

structure ExternalObject where
  url : String
deriving Repr, DecidableEq

structure ImageContainer where
  file : Option FileObject := none
  external : Option ExternalObject := none
deriving Repr, DecidableEq

structure FileContainer where
  file : Option FileObject := none
  external : Option ExternalObject := none
  name : Option String := none
deriving Repr, DecidableEq

structure EmbedContainer where
  url : String
deriving Repr, DecidableEq

structure LinkToPageContainer where
  link_type : String := ""
  page_id : Option String := none
  database_id : Option String := none
deriving Repr, DecidableEq

/-- `Block` (notion.rs:603-634): the tagged-by-`block_type` wide record,
with one optional payload per kind, exactly as deserialized. -/
structure Block where
  id : String
  block_type : String
  has_children : Bool := false
  paragraph : Option RichTextContainer := none
  heading_1 : Option RichTextContainer := none
  heading_2 : Option RichTextContainer := none
  heading_3 : Option RichTextContainer := none
  bulleted_list_item : Option RichTextContainer := none
  numbered_list_item : Option RichTextContainer := none
  to_do : Option ToDoContainer := none
  quote : Option RichTextContainer := none
  code : Option CodeContainer := none
  callout : Option CalloutContainer := none
  image : Option ImageContainer := none
  bookmark : Option BookmarkContainer := none
  toggle : Option RichTextContainer := none
  equation : Option EquationContainer := none
  child_page : Option TitleContainer := none
  child_database : Option TitleContainer := none
  table : Option TableContainer := none
  table_row : Option TableRowContainer := none
  file : Option FileContainer := none
  pdf : Option FileContainer := none
  video : Option FileContainer := none
  audio : Option FileContainer := none
  embed : Option EmbedContainer := none
  link_to_page : Option LinkToPageContainer := none
deriving Repr, DecidableEq

/-- `Block::children_marker` (notion.rs:637-668): the synthetic marker
inserted after an expanded parent. -/
def Block.children_marker (id : String) : Block :=
  { id := id ++ "::children", block_type := "children", has_children := false }

/-- `PageParent` (notion.rs:233-238). -/
structure PageParent where
  parent_type : String := ""
  database_id : Option String := none
  data_source_id : Option String := none
deriving Repr, DecidableEq

/-- `PropertyValue` (notion.rs:271-275). -/
inductive PropertyValue where
  | text (s : String)
  | list (items : List String)
deriving Repr, DecidableEq

/-- `PageMetadata` (notion.rs:240-249).  `properties` is a `BTreeMap`;
it is embedded as its iteration sequence (key-sorted association list —
theorems that depend on the order carry the sortedness as a premise). -/
structure PageMetadata where
  id : String
  url : String := ""
  created_time : String := ""
  last_edited_time : String := ""
  title : Option String := none
  parent : PageParent := {}
  properties : List (String × PropertyValue) := []

/-! ## Renderer (src/render.rs) -/

/-- `render_rich_text_item` (render.rs:318-344): backticks-and-skip for
code, otherwise bold, italic, strikethrough, underline in that order, each
wrapping the previous; an `href` wraps the result last. -/
def render_rich_text_item (item : RichText) : String :=
  let text := item.plain_text
  let text :=
    match item.annotations with
    | some a =>
      if a.code then "`" ++ text ++ "`"
      else
        let text := if a.bold then "**" ++ text ++ "**" else text
        let text := if a.italic then "*" ++ text ++ "*" else text
        let text := if a.strikethrough then "~~" ++ text ++ "~~" else text
        if a.underline then "<u>" ++ text ++ "</u>" else text
    | none => text
  match item.href with
  | some href => "[" ++ text ++ "](" ++ href ++ ")"
  | none => text

/-- `render_rich_text_vec` (render.rs:310-316): concatenation. -/
def render_rich_text_vec (rich_text : List RichText) : String :=
  String.join (rich_text.map render_rich_text_item)

/-- `render_rich_text` (render.rs:306-308). -/
def render_rich_text (container : RichTextContainer) : String :=
  render_rich_text_vec container.rich_text

/-- `BlobRef` (render.rs:10-14). -/
structure BlobRef where
  path : String
  url : String
deriving Repr, DecidableEq

/-- `TableState` (render.rs:346-362): the open table buffer. -/
structure TableState where
  rows : List (List String)
  width : Nat
  has_column_header : Bool
  has_row_header : Bool
deriving Repr, DecidableEq

/-- One emitted table line (render.rs:446-448, 457-459): a leading pipe,
the cells joined by `" | "`, a closing `" |"` and the newline.  Note there
is no space after the leading pipe. -/
def table_line (cells : List String) : String :=
  "|" ++ String.intercalate " | " cells ++ " |\n"

/-- The padded width `W` computed at close (render.rs:420-426):
`max(max row length, declared width)`. -/
def flush_width (st : TableState) : Nat :=
  Nat.max ((st.rows.map List.length).foldl Nat.max 0) st.width

/-- First-cell bolding of a body row when `has_row_header`
(render.rs:453-455). -/
def bold_first_cell (row : List String) : List String :=
  match row with
  | [] => []
  | c :: cs => ("**" ++ c ++ "**") :: cs

/-- `flush_table` (render.rs:414-462), as the string it appends: nothing
for no buffer or no rows; otherwise pad to `W`, emit the header line
(row 0 or blanks-as-single-space), a `---` separator of width `W`, the
body rows, and a closing blank line. -/
def flush_table (state : Option TableState) : String :=
  match state with
  | none => ""
  | some st =>
    if st.rows.isEmpty then "" else
    let width := flush_width st
    let rows := st.rows.map (fun row => row ++ List.replicate (width - row.length) "")
    let header := if st.has_column_header then rows.headD [] else List.replicate width ""
    let body := if st.has_column_header then rows.drop 1 else rows
    let header := header.map (fun cell => if cell = "" then " " else cell)
    let bodyLines := body.map (fun row =>
      table_line (if st.has_row_header then bold_first_cell row else row))
    table_line header ++ table_line (List.replicate width "---")
      ++ String.join bodyLines ++ "\n"

/-- `extract_extension_from_name` (render.rs:393-401): the part after the
last dot of the trimmed name, lower-cased; `none` without a dot or with an
empty suffix. -/
def extract_extension_from_name (name : String) : Option String :=
  let trimmed := (rustTrim name).data
  let revExt := trimmed.reverse.takeWhile (fun c => !(c = '.'))
  if revExt.length = trimmed.length then none
  else if revExt.isEmpty then none
  else some (String.toLower ⟨revExt.reverse⟩)

/-- `extract_extension_from_url` (render.rs:403-408): strip query and
fragment, take the last path segment, reuse the name rule. -/
def extract_extension_from_url (url : String) : Option String :=
  let without_query := (url.splitOn "?").headD url
  let without_fragment := (without_query.splitOn "#").headD without_query
  let filename := (without_fragment.splitOn "/").getLastD without_fragment
  extract_extension_from_name filename

/-- `build_blob_path` (render.rs:385-391): `blobs/{blockId}.{ext}` with
the extension from the name, else from the URL, else `bin`. -/
def build_blob_path (block_id : String) (name : Option String) (url : Option String) : String :=
  let ext :=
    match name.bind extract_extension_from_name with
    | some e => some e
    | none => url.bind extract_extension_from_url
  "blobs/" ++ block_id ++ "." ++ ext.getD "bin"

/-- `format_blob_link` (render.rs:410-412). -/
def format_blob_link (path : String) : String :=
  "../" ++ path

structure FileLink where
  label : String
  url : String
  path : String
deriving Repr, DecidableEq

/-- `render_file_link` (render.rs:370-383). -/
def render_file_link (container : Option FileContainer) (block_id : String) : Option FileLink :=
  match container with
  | none => none
  | some c =>
    let url? :=
      match c.file with
      | some f => some f.url
      | none => c.external.map (fun e => e.url)
    match url? with
    | none => none
    | some url =>
      some { label := c.name.getD "File", url := url
             path := build_blob_path block_id c.name (some url) }

/-- The renderer's running state inside `render_page`'s block loop
(render.rs:22-25): accumulated output, ordered-list counter, open table
buffer, and blob list. -/
structure RenderAcc where
  out : String
  numbering : Nat
  table : Option TableState
  blobs : List BlobRef

/-- One iteration of `render_page`'s block loop (render.rs:70-294): close
an open table on any block other than `table_row`/`children`, emit per the
type table, and reset numbering on any non-`numbered_list_item` block. -/
def render_block_step (acc : RenderAcc) (block : Block) : RenderAcc :=
  let acc :=
    if acc.table.isSome ∧ block.block_type ≠ "table_row" ∧ block.block_type ≠ "children" then
      { acc with out := acc.out ++ flush_table acc.table, table := none }
    else acc
  let acc :=
    match block.block_type with
    | "paragraph" =>
      match block.paragraph with
      | some c => { acc with out := acc.out ++ render_rich_text c ++ "\n\n" }
      | none => acc
    | "heading_1" =>
      match block.heading_1 with
      | some c => { acc with out := acc.out ++ "# " ++ render_rich_text c ++ "\n\n" }
      | none => acc
    | "heading_2" =>
      match block.heading_2 with
      | some c => { acc with out := acc.out ++ "## " ++ render_rich_text c ++ "\n\n" }
      | none => acc
    | "heading_3" =>
      match block.heading_3 with
      | some c => { acc with out := acc.out ++ "### " ++ render_rich_text c ++ "\n\n" }
      | none => acc
    | "bulleted_list_item" =>
      match block.bulleted_list_item with
      | some c => { acc with out := acc.out ++ "- " ++ render_rich_text c ++ "\n" }
      | none => acc
    | "numbered_list_item" =>
      match block.numbered_list_item with
      | some c =>
        { acc with out := acc.out ++ toString acc.numbering ++ ". " ++ render_rich_text c ++ "\n"
                   numbering := acc.numbering + 1 }
      | none => acc
    | "to_do" =>
      match block.to_do with
      | some todo =>
        let mark := if todo.checked then "x" else " "
        { acc with out := acc.out ++ "- [" ++ mark ++ "] " ++ render_rich_text_vec todo.rich_text ++ "\n" }
      | none => acc
    | "quote" =>
      match block.quote with
      | some c => { acc with out := acc.out ++ "> " ++ render_rich_text c ++ "\n\n" }
      | none => acc
    | "code" =>
      match block.code with
      | some c =>
        { acc with out := acc.out ++ "```" ++ c.language.getD "" ++ "\n"
            ++ render_rich_text_vec c.rich_text ++ "\n```\n\n" }
      | none => acc
    | "callout" =>
      match block.callout with
      | some c => { acc with out := acc.out ++ "> [!NOTE]\n> " ++ render_rich_text_vec c.rich_text ++ "\n\n" }
      | none => acc
    | "divider" => { acc with out := acc.out ++ "---\n\n" }
    | "image" =>
      match block.image with
      | some img =>
        let url? : Option String :=
          match img.file with
          | some f => some f.url
          | none => img.external.map (fun e => e.url)
        match url? with
        | some url =>
          let blob_path := build_blob_path block.id none (some url)
          { acc with blobs := acc.blobs ++ [⟨blob_path, url⟩]
                     out := acc.out ++ "![](" ++ format_blob_link blob_path ++ ")\n\n" }
        | none => acc
      | none => acc
    | "bookmark" =>
      match block.bookmark with
      | some b => { acc with out := acc.out ++ "[" ++ b.url ++ "](" ++ b.url ++ ")\n\n" }
      | none => acc
    | "toggle" =>
      match block.toggle with
      | some c => { acc with out := acc.out ++ "> **Toggle:** " ++ render_rich_text c ++ "\n\n" }
      | none => acc
    | "equation" =>
      match block.equation with
      | some e => { acc with out := acc.out ++ "$$\n" ++ e.expression ++ "\n$$\n\n" }
      | none => acc
    | "child_page" =>
      match block.child_page with
      | some c => { acc with out := acc.out ++ "- [Page] " ++ c.title ++ "\n\n" }
      | none => acc
    | "child_database" =>
      match block.child_database with
      | some c => { acc with out := acc.out ++ "- [Database] " ++ c.title ++ "\n\n" }
      | none => acc
    | "table" =>
      match block.table with
      | some t =>
        { acc with table := some ⟨[], t.table_width, t.has_column_header, t.has_row_header⟩ }
      | none => acc
    | "table_row" =>
      match block.table_row, acc.table with
      | some row, some st =>
        { acc with table := some { st with rows := st.rows ++ [row.cells.map render_rich_text_vec] } }
      | _, _ => acc
    | "file" =>
      match render_file_link block.file block.id with
      | some link =>
        { acc with blobs := acc.blobs ++ [⟨link.path, link.url⟩]
                   out := acc.out ++ "[" ++ link.label ++ "](" ++ format_blob_link link.path ++ ")\n\n" }
      | none => acc
    | "pdf" =>
      match render_file_link block.pdf block.id with
      | some link =>
        { acc with blobs := acc.blobs ++ [⟨link.path, link.url⟩]
                   out := acc.out ++ "[" ++ link.label ++ "](" ++ format_blob_link link.path ++ ")\n\n" }
      | none => acc
    | "video" =>
      match render_file_link block.video block.id with
      | some link =>
        { acc with blobs := acc.blobs ++ [⟨link.path, link.url⟩]
                   out := acc.out ++ "[" ++ link.label ++ "](" ++ format_blob_link link.path ++ ")\n\n" }
      | none => acc
    | "audio" =>
      match render_file_link block.audio block.id with
      | some link =>
        { acc with blobs := acc.blobs ++ [⟨link.path, link.url⟩]
                   out := acc.out ++ "[" ++ link.label ++ "](" ++ format_blob_link link.path ++ ")\n\n" }
      | none => acc
    | "embed" =>
      match block.embed with
      | some e => { acc with out := acc.out ++ "[Embed](" ++ e.url ++ ")\n\n" }
      | none => acc
    | "link_to_page" =>
      match block.link_to_page with
      | some l =>
        let target :=
          match l.page_id with
          | some p => p
          | none => l.database_id.getD "unknown"
        { acc with out := acc.out ++ "[Link] " ++ target ++ "\n\n" }
      | none => acc
    | "children" => { acc with out := acc.out ++ "\n", numbering := 1 }
    | _ => acc
  if block.block_type ≠ "numbered_list_item" then { acc with numbering := 1 } else acc

/-- The whole block loop of `render_page` (render.rs:70-298), including
the final flush of a table left open at the end of the page. -/
def render_blocks_part (blocks : List Block) : RenderAcc :=
  let acc := blocks.foldl render_block_step ⟨"", 1, none, []⟩
  if acc.table.isSome then { acc with out := acc.out ++ flush_table acc.table, table := none }
  else acc

/-- Embedding of `serde_yaml::Value` restricted to the shapes render.rs
builds: strings, sequences of strings, nested mappings. -/
inductive Yaml where
  | str (s : String)
  | seq (items : List Yaml)
  | map (fields : List (String × Yaml))

/-- `serde_yaml::Mapping::insert`: mappings preserve insertion order; an
insert on a present key replaces the value in place, otherwise appends. -/
def mappingInsert (m : List (String × Yaml)) (k : String) (v : Yaml) : List (String × Yaml) :=
  if m.any (fun kv => kv.1 = k) then
    m.map (fun kv => if kv.1 = k then (k, v) else kv)
  else m ++ [(k, v)]

/-- The YAML value of one property (render.rs:50-58). -/
def yamlOfProperty : PropertyValue → Yaml
  | .text s => .str s
  | .list items => .seq (items.map Yaml.str)

/-- The key translation of the property loop (render.rs:46):
`key_map.get(key).unwrap_or(key)`. -/
def mapped_key_of (key_map : List (String × String)) (k : String) : String :=
  match key_map.lookup k with
  | some v => v
  | none => k

/-- The `property_includes` filter of the property loop (render.rs:41-45):
skip when the set is present and does not contain the key. -/
def front_matter_skip (property_includes : Option (List String)) (k : String) : Bool :=
  match property_includes with
  | some inc => !(inc.contains k)
  | none => false

/-- The complement of `front_matter_skip`: the key passes the
`property_includes` filter. -/
def front_matter_includes_pass (property_includes : Option (List String))
    (k : String) : Bool :=
  match property_includes with
  | some inc => inc.contains k
  | none => true

/-- One iteration of the property loop of `render_page` (render.rs:40-60):
skip a property filtered out by `property_includes`, translate its key
via `key_map` (empty mapped key drops it), insert its YAML value. -/
def front_matter_step (key_map : List (String × String))
    (property_includes : Option (List String)) (fm : List (String × Yaml))
    (kv : String × PropertyValue) : List (String × Yaml) :=
  if front_matter_skip property_includes kv.1 then fm
  else if mapped_key_of key_map kv.1 = "" then fm
  else mappingInsert fm (mapped_key_of key_map kv.1) (yamlOfProperty kv.2)

/-- The front-matter mapping built by `render_page` (render.rs:27-60):
`_notion {page_id, database_id?}` first, then each property in
`metadata.properties` order through `front_matter_step`. -/
def front_matter_mapping (metadata : PageMetadata) (key_map : List (String × String))
    (property_includes : Option (List String)) : List (String × Yaml) :=
  let notion_meta := mappingInsert [] "page_id" (.str metadata.id)
  let notion_meta :=
    match metadata.parent.database_id with
    | some dbid => mappingInsert notion_meta "database_id" (.str dbid)
    | none => notion_meta
  let fm := mappingInsert [] "_notion" (.map notion_meta)
  metadata.properties.foldl (front_matter_step key_map property_includes) fm

/-- The emitted properties as the spec words them (§4.2 front matter): the
properties surviving the `property_includes` filter and the
empty-mapped-key rule, in input order, keys translated through `key_map`.
Stated to be compared against `front_matter_mapping`. -/
def front_matter_props_spec (properties : List (String × PropertyValue))
    (key_map : List (String × String)) (property_includes : Option (List String)) :
    List (String × Yaml) :=
  (properties.filter (fun kv =>
      front_matter_includes_pass property_includes kv.1
      && !(mapped_key_of key_map kv.1 = ""))).map
    (fun kv => (mapped_key_of key_map kv.1, yamlOfProperty kv.2))

/-- The keep-predicate of the front-matter property loop, as the spec
words it: passes `property_includes` and maps to a non-empty key. -/
def front_matter_keeps (key_map : List (String × String))
    (property_includes : Option (List String)) (kv : String × PropertyValue) : Bool :=
  front_matter_includes_pass property_includes kv.1
  && !(mapped_key_of key_map kv.1 = "")

/-- `yaml.strip_prefix("---\n").unwrap_or(&yaml)` (render.rs:62). -/
def stripYamlHeader (s : String) : String :=
  if s.data.take 4 = "---\n".data then ⟨s.data.drop 4⟩ else s

/-- `Rendered` (render.rs:5-8). -/
structure Rendered where
  markdown : String
  blobs : List BlobRef

/-- `render_page` (render.rs:16-304).  `yamlDump` is
`serde_yaml::to_string` on the front-matter mapping (an external
collaborator); render.rs strips its optional leading document marker and
guarantees a trailing newline. -/
def render_page (yamlDump : List (String × Yaml) → String) (metadata : PageMetadata)
    (blocks : List Block) (key_map : List (String × String))
    (property_includes : Option (List String)) : Rendered :=
  let fm := front_matter_mapping metadata key_map property_includes
  let yaml := stripYamlHeader (yamlDump fm)
  let fmText := "---\n" ++ yaml
    ++ (if yaml.data.getLast? = some '\n' then "" else "\n") ++ "---\n\n"
  let acc := render_blocks_part blocks
  ⟨fmText ++ acc.out, acc.blobs⟩

/-! ## Bounded block-tree fetch (src/notion.rs fetch_blocks) -/

mutual

/-- The expansion `NotionClient::fetch_blocks`'s worklist loop
(notion.rs:36-54) performs on one block carrying remaining budget `d`:
with `has_children` and positive budget, the block is followed by a
synthetic `children` marker (inserted with budget 0, hence never expanded)
and by its fetched children, each carrying budget `d - 1`; otherwise the
block passes through.  `ch` is `fetch_block_children` (the paginated
children request, an external call). -/
def expandBlock (ch : String → List Block) (d : Nat) (b : Block) : List Block :=
  match d with
  | 0 => [b]
  | Nat.succ e =>
    if b.has_children then
      b :: Block.children_marker b.id :: expandBlocks ch e (ch b.id)
    else [b]
termination_by (d, 0)

/-- The same loop over a run of consecutive positions that share the
remaining budget `d` (notion.rs:36-54). -/
def expandBlocks (ch : String → List Block) (d : Nat) (l : List Block) : List Block :=
  match l with
  | [] => []
  | b :: rest => expandBlock ch d b ++ expandBlocks ch d rest
termination_by (d, l.length + 1)

end

/-- `NotionClient::fetch_blocks` (notion.rs:30-57): fetch the root's
children; at depth 0 return them flat, otherwise run the expansion walk
with every top-level position carrying budget `depth`. -/
def fetch_blocks (ch : String → List Block) (root : String) (depth : Nat) : List Block :=
  let blocks := ch root
  if depth = 0 then blocks else expandBlocks ch depth blocks

/-- The ids of the children fetched below block id `x`. -/
def chIds (ch : String → List Block) (x : String) : List String :=
  (ch x).map Block.id

/-- The id `Block::children_marker` gives the synthetic marker
(notion.rs:639). -/
def markerId (id : String) : String :=
  id ++ "::children"

/-- `i` is the id of a block strictly inside the subtree fetched below the
block with id `x`: a direct child's id, or recursively below a child. -/
inductive Under (ch : String → List Block) : String → String → Prop where
  | base {x i} : i ∈ chIds ch x → Under ch x i
  | step {x j i} : j ∈ chIds ch x → Under ch j i → Under ch x i

/-- A two-level concrete upstream: root `r` has one child `a` (with
children), `a` has one child `z`. -/
def chW : String → List Block :=
  fun x =>
    if x = "r" then [{ id := "a", block_type := "paragraph", has_children := true }]
    else if x = "a" then [{ id := "z", block_type := "paragraph" }]
    else []

/-- A rank function witnessing that `chW` is tree-shaped. -/
def rankW : String → Nat :=
  fun x => if x = "r" then 2 else if x = "a" then 1 else 0

/-! ## Job queue (src/queue.rs) -/

/-- `SyncJob` (queue.rs:11-16). -/
inductive SyncJob where
  | syncPageById (page_id : String)
  | syncPage (database_id : String) (page_id : String)
  | scanDataSource (database_id : String) (data_source_id : String)
deriving Repr, DecidableEq

/-- `serde_json::to_string(&job)` on the Redis enqueue path
(queue.rs:92-93), at the JSON-value level: serde's externally tagged
representation of the enum, with struct-variant fields as an object. -/
def encodeSyncJob : SyncJob → Json
  | .syncPageById pid =>
    .obj [("SyncPageById", .obj [("page_id", .str pid)])]
  | .syncPage dbid pid =>
    .obj [("SyncPage", .obj [("database_id", .str dbid), ("page_id", .str pid)])]
  | .scanDataSource dbid dsid =>
    .obj [("ScanDataSource", .obj [("database_id", .str dbid), ("data_source_id", .str dsid)])]

/-- `serde_json::from_str::<SyncJob>` in the Redis consumer
(queue.rs:173-179), at the JSON-value level: a single-entry map whose key
names the variant and whose value carries the named fields. -/
def decodeSyncJob : Json → Option SyncJob
  | .obj [(tag, payload)] =>
    if tag = "SyncPageById" then
      ((payload.get "page_id").bind Json.asStr).map SyncJob.syncPageById
    else if tag = "SyncPage" then
      match (payload.get "database_id").bind Json.asStr,
            (payload.get "page_id").bind Json.asStr with
      | some dbid, some pid => some (.syncPage dbid pid)
      | _, _ => none
    else if tag = "ScanDataSource" then
      match (payload.get "database_id").bind Json.asStr,
            (payload.get "data_source_id").bind Json.asStr with
      | some dbid, some dsid => some (.scanDataSource dbid dsid)
      | _, _ => none
    else none
  | _ => none

/-! ## Worker sync path (src/sync.rs, src/queue.rs process_job) -/

/-- Modelled from the spec: `get_page_parent_database_id` is called by
`sync_page_by_id` (sync.rs:12) but is absent from the sources; per the
spec's `getPageParent` (reads the upstream `parent` field) and the call
site's binding `let Some(database_id) = ...`, it yields the parent's
database id when the parent exposes one. -/
def get_page_parent_database_id (parent : PageParent) : Option String :=
  parent.database_id

/-- What `sync_page_by_id` did with the job, as observable in its logs and
result (sync.rs:9-30). -/
inductive SyncPageByIdOutcome where
  | notUnderDatabase
  | databaseNotConfigured
  | delegated (database_id : String)
deriving Repr, DecidableEq

/-- `sync_page_by_id` (sync.rs:9-30): resolve the parent's database id;
without one, or with one matching no configured binding, log and drop
(returning success); otherwise run `sync_page` against the matched
binding.  The parent lookup and the page sync are upstream calls, passed
as `Except` results. -/
def sync_page_by_id (parentLookup : Except String PageParent)
    (databases : List DatabaseState)
    (runSyncPage : DatabaseState → Except String Unit) :
    Except String SyncPageByIdOutcome :=
  match parentLookup with
  | .error e => .error e
  | .ok parent =>
    match get_page_parent_database_id parent with
    | none => .ok .notUnderDatabase
    | some database_id =>
      match databases.find? (fun db => db.id == database_id) with
      | none => .ok .databaseNotConfigured
      | some db =>
        match runSyncPage db with
        | .ok _ => .ok (.delegated db.id)
        | .error e => .error e

/-- Binding choice as the claim words it (spec §4.6): match the parent's
`data_source_id` against each binding's data sources first, fall back to
matching `database_id`.  Stated only to be compared against
`sync_page_by_id`; the source does not implement it. -/
def claim_binding_choice (parent : PageParent) (databases : List DatabaseState) :
    Option DatabaseState :=
  match parent.data_source_id.bind
      (fun ds => databases.find? (fun db => db.data_sources.any (fun d => d.id == ds))) with
  | some db => some db
  | none =>
    parent.database_id.bind (fun dbid => databases.find? (fun db => db.id == dbid))

/-- `process_job` on a `SyncPageById` job (queue.rs:196-201): a failing
sync schedules the same job again after 10 seconds and propagates the
error; a successful one schedules nothing.  The second component lists the
`requeue_after` calls as (job, delay in seconds). -/
def process_job_syncPageById (syncResult : Except String SyncPageByIdOutcome)
    (page_id : String) : Except String Unit × List (SyncJob × Nat) :=
  match syncResult with
  | .error e => (.error e, [(SyncJob.syncPageById page_id, 10)])
  | .ok _ => (.ok (), [])

/-! ## Periodic rescanner (src/scheduler.rs, src/main.rs) -/

/-- The tick period of `spawn_periodic_sync` (scheduler.rs:7):
`interval_seconds.max(1)` seconds. -/
def spawn_periodic_sync_period (interval_seconds : Nat) : Nat :=
  Nat.max interval_seconds 1

/-- What one scheduler tick runs (scheduler.rs:13). -/
inductive SchedulerTickAction where
  | runSyncAll
  | enqueueScanJobs
deriving Repr, DecidableEq

/-- Each tick of `spawn_periodic_sync` invokes `sync::sync_all` directly
(scheduler.rs:13); it does not enqueue `ScanDataSource` jobs. -/
def scheduler_tick_action : SchedulerTickAction :=
  .runSyncAll

/-- Whether `main` spawns the periodic task for a given configured
`sync.interval_seconds`: the call `spawn_periodic_sync(state.clone(),
config.sync.interval_seconds)` (main.rs:92) is unconditional. -/
def main_spawns_periodic_sync (_interval_seconds : Nat) : Bool :=
  true

/-! ## Helper lemmas -/

/-- Removing one key leaves lookups of any other key unchanged. -/
theorem lookupField_filter_ne (fields : List (String × Json)) (key k : String)
    (hne : k ≠ key) :
    lookupField (fields.filter (fun kv => !(kv.1 = key))) k = lookupField fields k := by
  induction fields with
  | nil => rfl
  | cons kv rest ih =>
    rw [List.filter_cons]
    by_cases hk : kv.1 = key
    · have hkey : ¬ (key = k) := fun h => hne h.symm
      simp [hk, lookupField, ih, if_neg hkey]
    · by_cases hkk : kv.1 = k
      · simp only [hk, decide_False, Bool.not_false, if_true, lookupField,
          if_pos hkk]
      · simp only [hk, decide_False, Bool.not_false, if_true, lookupField,
          if_neg hkk, ih]

/-- `Json.get` after `removeKey` of a different key. -/
theorem Json.get_removeKey_ne (p : Json) (key k : String) (hne : k ≠ key) :
    (p.removeKey key).get k = p.get k := by
  cases p <;> simp [Json.removeKey, Json.get]
  exact lookupField_filter_ne _ _ _ hne

/-- `Json.get` of the removed key is `none`. -/
theorem Json.get_removeKey_self (p : Json) (key : String) :
    (p.removeKey key).get key = none := by
  cases p with
  | obj fields =>
    simp only [Json.removeKey, Json.get]
    induction fields with
    | nil => rfl
    | cons kv rest ih =>
      by_cases hk : kv.1 = key
      · simpa [List.filter, hk] using ih
      · simpa [List.filter, hk, lookupField] using ih
  | null => rfl
  | bool b => rfl
  | num n => rfl
  | str s => rfl
  | arr l => rfl

/-- `extract_page_id` ignores the `timestamp` field. -/
theorem extract_page_id_removeKey_timestamp (p : Json) :
    extract_page_id (p.removeKey "timestamp") = extract_page_id p := by
  unfold extract_page_id
  rw [Json.get_removeKey_ne p "timestamp" "page_id" (by decide),
      Json.get_removeKey_ne p "timestamp" "data" (by decide)]

/-- `extract_data_source_id` ignores the `timestamp` field. -/
theorem extract_data_source_id_removeKey_timestamp (p : Json) :
    extract_data_source_id (p.removeKey "timestamp") = extract_data_source_id p := by
  unfold extract_data_source_id
  rw [Json.get_removeKey_ne p "timestamp" "data_source_id" (by decide),
      Json.get_removeKey_ne p "timestamp" "data" (by decide)]

/-- `extract_database_id` ignores the `timestamp` field. -/
theorem extract_database_id_removeKey_timestamp (p : Json) :
    extract_database_id (p.removeKey "timestamp") = extract_database_id p := by
  unfold extract_database_id
  rw [Json.get_removeKey_ne p "timestamp" "database_id" (by decide),
      Json.get_removeKey_ne p "timestamp" "data" (by decide)]

/-- Dispatch is insensitive to the `timestamp` field. -/
theorem handle_webhook_dispatch_removeKey_timestamp (databases : List DatabaseState)
    (p : Json) :
    handle_webhook_dispatch databases (p.removeKey "timestamp")
      = handle_webhook_dispatch databases p := by
  unfold handle_webhook_dispatch
  rw [extract_page_id_removeKey_timestamp, extract_data_source_id_removeKey_timestamp,
      extract_database_id_removeKey_timestamp]

/-- The initial value is a lower bound of a `foldl Nat.max`. -/
theorem le_foldl_max (l : List Nat) (a : Nat) : a ≤ l.foldl Nat.max a := by
  induction l generalizing a with
  | nil => exact Nat.le_refl a
  | cons x xs ih => exact Nat.le_trans (Nat.le_max_left a x) (ih (Nat.max a x))

/-- Every member is a lower bound of a `foldl Nat.max`. -/
theorem mem_le_foldl_max (l : List Nat) (a x : Nat) : x ∈ l → x ≤ l.foldl Nat.max a := by
  induction l generalizing a with
  | nil => intro hx; cases hx
  | cons y ys ih =>
    intro hx
    rcases List.mem_cons.mp hx with h | h
    · subst h
      exact Nat.le_trans (Nat.le_max_right a x) (le_foldl_max ys (Nat.max a x))
    · exact ih (Nat.max a y) h

/-- Every row of the buffer is at most `flush_width` long. -/
theorem row_le_flush_width (st : TableState) (row : List String) (h : row ∈ st.rows) :
    row.length ≤ flush_width st := by
  unfold flush_width
  exact Nat.le_trans
    (mem_le_foldl_max (st.rows.map List.length) 0 row.length
      (List.mem_map_of_mem List.length h))
    (Nat.le_max_left _ _)

/-- Right-padding with empty cells reaches exactly the target width. -/
theorem padded_length (row : List String) (w : Nat) (h : row.length ≤ w) :
    (row ++ List.replicate (w - row.length) "").length = w := by
  simp only [List.length_append, List.length_replicate]
  omega

/-- Bolding the first cell preserves the row length. -/
theorem bold_first_cell_length (row : List String) :
    (bold_first_cell row).length = row.length := by
  cases row <;> rfl

/-- `mappingInsert` on a fresh key appends. -/
theorem mappingInsert_append (m : List (String × Yaml)) (k : String) (v : Yaml)
    (h : ∀ kv ∈ m, kv.1 ≠ k) : mappingInsert m k v = m ++ [(k, v)] := by
  unfold mappingInsert
  rw [if_neg]
  intro hany
  rw [List.any_eq_true] at hany
  obtain ⟨kv, hkv, hdec⟩ := hany
  exact h kv hkv (of_decide_eq_true hdec)

/-- Skipping is the complement of passing the includes filter. -/
theorem front_matter_skip_eq_not_pass (property_includes : Option (List String))
    (k : String) :
    front_matter_skip property_includes k
      = !(front_matter_includes_pass property_includes k) := by
  cases property_includes <;> rfl

/-- `front_matter_props_spec` is the kept properties, renamed. -/
theorem front_matter_props_spec_eq (properties : List (String × PropertyValue))
    (key_map : List (String × String)) (property_includes : Option (List String)) :
    front_matter_props_spec properties key_map property_includes
      = (properties.filter (front_matter_keeps key_map property_includes)).map
          (fun kv => (mapped_key_of key_map kv.1, yamlOfProperty kv.2)) := rfl

/-- A kept property is inserted by appending (given a fresh mapped key). -/
theorem front_matter_step_keep (key_map : List (String × String))
    (property_includes : Option (List String)) (fm : List (String × Yaml))
    (kv : String × PropertyValue)
    (h : front_matter_keeps key_map property_includes kv = true)
    (hfresh : ∀ kv2 ∈ fm, kv2.1 ≠ mapped_key_of key_map kv.1) :
    front_matter_step key_map property_includes fm kv
      = fm ++ [(mapped_key_of key_map kv.1, yamlOfProperty kv.2)] := by
  unfold front_matter_step
  have hparts := h
  unfold front_matter_keeps at hparts
  rw [Bool.and_eq_true] at hparts
  have hskip : front_matter_skip property_includes kv.1 = false := by
    rw [front_matter_skip_eq_not_pass, hparts.1]
    rfl
  have hmk : ¬(mapped_key_of key_map kv.1 = "") := by
    have h2 := hparts.2
    rw [Bool.not_eq_true'] at h2
    exact of_decide_eq_false h2
  rw [hskip, if_neg Bool.false_ne_true, if_neg hmk]
  exact mappingInsert_append _ _ _ hfresh

/-- A filtered-out or empty-keyed property leaves the mapping unchanged. -/
theorem front_matter_step_drop (key_map : List (String × String))
    (property_includes : Option (List String)) (fm : List (String × Yaml))
    (kv : String × PropertyValue)
    (h : front_matter_keeps key_map property_includes kv = false) :
    front_matter_step key_map property_includes fm kv = fm := by
  unfold front_matter_step
  unfold front_matter_keeps at h
  by_cases hskip : front_matter_skip property_includes kv.1 = true
  · rw [hskip, if_pos rfl]
  · have hskipf : front_matter_skip property_includes kv.1 = false :=
      (Bool.not_eq_true _) ▸ hskip
    rw [hskipf, if_neg Bool.false_ne_true]
    have hpass : front_matter_includes_pass property_includes kv.1 = true := by
      have h2 : (!(front_matter_includes_pass property_includes kv.1)) = false := by
        rw [← front_matter_skip_eq_not_pass]
        exact hskipf
      cases hcb : front_matter_includes_pass property_includes kv.1
      · rw [hcb] at h2
        cases h2
      · rfl
    rw [hpass, Bool.true_and] at h
    have hmk : mapped_key_of key_map kv.1 = "" := by
      have h3 : decide (mapped_key_of key_map kv.1 = "") = true := by
        cases hd : decide (mapped_key_of key_map kv.1 = "")
        · rw [hd] at h
          cases h
        · rfl
      exact of_decide_eq_true h3
    rw [if_pos hmk]

/-- Running the property loop over an accumulator none of whose keys the
kept properties map onto appends exactly the renamed kept properties. -/
theorem front_matter_foldl_eq (key_map : List (String × String))
    (property_includes : Option (List String)) :
    ∀ (props : List (String × PropertyValue)) (acc : List (String × Yaml)),
      (∀ kv ∈ front_matter_props_spec props key_map property_includes,
        ∀ kv2 ∈ acc, kv.1 ≠ kv2.1) →
      ((front_matter_props_spec props key_map property_includes).map Prod.fst).Nodup →
      props.foldl (front_matter_step key_map property_includes) acc
        = acc ++ front_matter_props_spec props key_map property_includes := by
  intro props
  induction props with
  | nil =>
    intro acc _ _
    simp [front_matter_props_spec]
  | cons kv rest ih =>
    intro acc hdisj hnodup
    rw [front_matter_props_spec_eq] at hdisj hnodup ⊢
    rw [List.filter_cons] at hdisj hnodup ⊢
    by_cases hp : front_matter_keeps key_map property_includes kv = true
    · rw [if_pos hp] at hdisj hnodup ⊢
      have hstep := front_matter_step_keep key_map property_includes acc kv hp
        (fun kv2 hkv2 =>
          fun hbad => hdisj _ (List.mem_cons_self _ _) kv2 hkv2 hbad.symm)
      rw [List.foldl_cons, hstep]
      rw [List.map_cons, List.map_cons, List.nodup_cons] at hnodup
      rw [ih (acc ++ [(mapped_key_of key_map kv.1, yamlOfProperty kv.2)]) ?_ hnodup.2]
      · rw [List.append_assoc]
        rfl
      · intro kv3 hkv3 kv2 hkv2
        rcases List.mem_append.mp hkv2 with h2 | h2
        · exact hdisj kv3 (List.mem_cons_of_mem _ hkv3) kv2 h2
        · rcases List.mem_singleton.mp h2 with rfl
          intro hbad
          exact hnodup.1 (hbad ▸ List.mem_map_of_mem Prod.fst hkv3)
    · have hpf : front_matter_keeps key_map property_includes kv = false :=
        (Bool.not_eq_true _) ▸ hp
      rw [if_neg hp] at hdisj hnodup ⊢
      rw [List.foldl_cons, front_matter_step_drop key_map property_includes acc kv hpf]
      exact ih acc hdisj hnodup

/-- Unfolding: expanding the empty worklist. -/
theorem expandBlocks_nil (ch : String → List Block) (d : Nat) :
    expandBlocks ch d [] = [] := by
  unfold expandBlocks
  rfl

/-- Unfolding: expanding a worklist position then the rest. -/
theorem expandBlocks_cons (ch : String → List Block) (d : Nat) (b : Block)
    (rest : List Block) :
    expandBlocks ch d (b :: rest) = expandBlock ch d b ++ expandBlocks ch d rest := by
  rw [expandBlocks.eq_def]

/-- Unfolding: a block with exhausted budget passes through. -/
theorem expandBlock_zero (ch : String → List Block) (b : Block) :
    expandBlock ch 0 b = [b] := by
  unfold expandBlock
  rfl

/-- Unfolding: a block with positive budget. -/
theorem expandBlock_succ (ch : String → List Block) (d : Nat) (b : Block) :
    expandBlock ch (d + 1) b
      = if b.has_children then
          b :: Block.children_marker b.id :: expandBlocks ch d (ch b.id)
        else [b] := by
  rw [expandBlock.eq_def]

/-- Marker ids are injective in the parent id. -/
theorem markerId_inj (a b : String) (h : markerId a = markerId b) : a = b := by
  unfold markerId at h
  have hd : a.data ++ "::children".data = b.data ++ "::children".data := by
    have := congrArg String.data h
    simpa [String.data_append] using this
  have hlen : a.data.length = b.data.length := by
    have := congrArg List.length hd
    simp only [List.length_append] at this
    omega
  have hab : a.data = b.data := (List.append_inj hd hlen).1
  cases a
  cases b
  exact congrArg String.mk hab

/-- Every subtree id has an immediate parent inside (or at) the root of
the subtree. -/
theorem under_last_parent (ch : String → List Block) (x z : String)
    (h : Under ch x z) :
    ∃ q, z ∈ chIds ch q ∧ (q = x ∨ Under ch x q) := by
  induction h with
  | base hz => exact ⟨_, hz, Or.inl rfl⟩
  | step hj _ ih =>
    obtain ⟨q, hq, hcase⟩ := ih
    rcases hcase with rfl | hq2
    · exact ⟨_, hq, Or.inr (Under.base hj)⟩
    · exact ⟨q, hq, Or.inr (Under.step hj hq2)⟩

/-- A rank function decreasing into children bounds every subtree id. -/
theorem under_rank (ch : String → List Block) (rank : String → Nat)
    (Hrank : ∀ x i, i ∈ chIds ch x → rank i < rank x)
    (x z : String) (h : Under ch x z) : rank z < rank x := by
  induction h with
  | base hz => exact Hrank _ _ hz
  | step hj _ ih => exact Nat.lt_trans ih (Hrank _ _ hj)

/-- No subtree id is marker-shaped (given no upstream id is). -/
theorem under_not_marker (ch : String → List Block)
    (HM : ∀ x i, i ∈ chIds ch x → ∀ y, i ≠ markerId y)
    (p z : String) (h : Under ch p z) : ∀ y, z ≠ markerId y := by
  obtain ⟨q, hzq, _⟩ := under_last_parent ch p z h
  exact HM q z hzq

/-- A direct child of `x` cannot also sit strictly inside the subtree of
one of `x`'s children (with disjoint upstream child lists and a rank). -/
theorem under_crosses (ch : String → List Block) (rank : String → Nat)
    (HD : ∀ p q, p ≠ q → ∀ i, i ∈ chIds ch p → i ∈ chIds ch q → False)
    (Hrank : ∀ x i, i ∈ chIds ch x → rank i < rank x)
    (x b2 z : String) (hb2 : b2 ∈ chIds ch x) (hu : Under ch b2 z)
    (hz : z ∈ chIds ch x) : False := by
  obtain ⟨q, hzq, hcase⟩ := under_last_parent ch b2 z hu
  have hqlt : rank q < rank x := by
    rcases hcase with rfl | hq2
    · exact Hrank x q hb2
    · exact Nat.lt_trans (under_rank ch rank Hrank _ _ hq2) (Hrank x b2 hb2)
  refine HD q x ?_ z hzq hz
  intro hqx
  rw [hqx] at hqlt
  exact Nat.lt_irrefl _ hqlt

/-- Siblings are not inside each other's subtrees. -/
theorem not_under_of_sibling (ch : String → List Block) (rank : String → Nat)
    (HD : ∀ p q, p ≠ q → ∀ i, i ∈ chIds ch p → i ∈ chIds ch q → False)
    (Hrank : ∀ x i, i ∈ chIds ch x → rank i < rank x)
    (x a b : String) (hax : a ∈ chIds ch x) (hbx : b ∈ chIds ch x) :
    ¬ Under ch a b := by
  intro hu
  exact under_crosses ch rank HD Hrank x a b hax hu hbx

/-- Subtrees of two distinct ids, neither inside the other, are disjoint
(with disjoint upstream child lists and a rank). -/
theorem under_disjoint (ch : String → List Block) (rank : String → Nat)
    (HD : ∀ p q, p ≠ q → ∀ i, i ∈ chIds ch p → i ∈ chIds ch q → False)
    (Hrank : ∀ x i, i ∈ chIds ch x → rank i < rank x) :
    ∀ n a b, rank a + rank b ≤ n →
      a ≠ b →
      ¬ Under ch a b → ¬ Under ch b a →
      ∀ z, Under ch a z → Under ch b z → False := by
  intro n
  induction n with
  | zero =>
    intro a b hsum _ _ _ z haz _
    have := under_rank ch rank Hrank a z haz
    omega
  | succ m ih =>
    intro a b hsum hne hnab hnba z haz hbz
    cases haz with
    | base hza =>
      cases hbz with
      | base hzb => exact HD a b hne z hza hzb
      | step hkb hkz =>
        obtain ⟨q, hzq, hcase⟩ := under_last_parent ch _ z hkz
        by_cases hqa : q = a
        · subst hqa
          rcases hcase with rfl | hka
          · exact hnba (Under.base hkb)
          · exact hnba (Under.step hkb hka)
        · exact HD q a hqa z hzq hza
    | step hja hjz =>
      cases hbz with
      | base hzb =>
        obtain ⟨q, hzq, hcase⟩ := under_last_parent ch _ z hjz
        by_cases hqb : q = b
        · subst hqb
          rcases hcase with rfl | hjb
          · exact hnab (Under.base hja)
          · exact hnab (Under.step hja hjb)
        · exact HD q b hqb z hzq hzb
      | step hkb hkz =>
        rename_i j k
        by_cases hjk : j = k
        · subst hjk
          exact HD a b hne j hja hkb
        · have hsum2 : rank j + rank k ≤ m := by
            have h1 := Hrank a j hja
            have h2 := Hrank b k hkb
            omega
          have hnjk : ¬ Under ch j k := by
            intro hu
            obtain ⟨r, hkr, hcase⟩ := under_last_parent ch _ _ hu
            by_cases hrb : r = b
            · subst hrb
              rcases hcase with rfl | hjb
              · exact hnab (Under.base hja)
              · exact hnab (Under.step hja hjb)
            · exact HD r b hrb k hkr hkb
          have hnkj : ¬ Under ch k j := by
            intro hu
            obtain ⟨r, hjr, hcase⟩ := under_last_parent ch _ _ hu
            by_cases hra : r = a
            · subst hra
              rcases hcase with rfl | hka
              · exact hnba (Under.base hkb)
              · exact hnba (Under.step hkb hka)
            · exact HD r a hra j hjr hja
          exact ih j k hsum2 hjk hnjk hnkj z hjz hkz

/-- Every element of an expanded worklist stems from one input block. -/
theorem mem_expandBlocks_exists (ch : String → List Block) (d : Nat) :
    ∀ (l : List Block) (b2 : Block), b2 ∈ expandBlocks ch d l →
      ∃ b ∈ l, b2 ∈ expandBlock ch d b := by
  intro l
  induction l with
  | nil =>
    intro b2 h
    rw [expandBlocks_nil] at h
    cases h
  | cons b rest ih =>
    intro b2 h
    rw [expandBlocks_cons] at h
    rcases List.mem_append.mp h with h1 | h1
    · exact ⟨b, List.mem_cons_self _ _, h1⟩
    · obtain ⟨c, hc, h2⟩ := ih b2 h1
      exact ⟨c, List.mem_cons_of_mem _ hc, h2⟩

/-- Every id in one block's expansion is the block's own id, its marker
id, or (possibly as a marker) an id strictly inside its subtree. -/
theorem expandBlock_id_mem (ch : String → List Block) :
    ∀ (d : Nat) (b : Block) (i : String), i ∈ (expandBlock ch d b).map Block.id →
      i = b.id ∨ i = markerId b.id
        ∨ ∃ z, Under ch b.id z ∧ (i = z ∨ i = markerId z) := by
  intro d
  induction d with
  | zero =>
    intro b i hi
    rw [expandBlock_zero] at hi
    simp only [List.map_cons, List.map_nil, List.mem_singleton] at hi
    exact Or.inl hi
  | succ e ih =>
    intro b i hi
    rw [expandBlock_succ] at hi
    cases hhc : b.has_children with
    | false =>
      rw [hhc, if_neg Bool.false_ne_true] at hi
      simp only [List.map_cons, List.map_nil, List.mem_singleton] at hi
      exact Or.inl hi
    | true =>
      rw [hhc, if_pos rfl, List.map_cons, List.map_cons] at hi
      rcases List.mem_cons.mp hi with h1 | hi2
      · exact Or.inl h1
      rcases List.mem_cons.mp hi2 with h2 | hi3
      · exact Or.inr (Or.inl h2)
      obtain ⟨b2, hb2, rfl⟩ := List.mem_map.mp hi3
      obtain ⟨c, hc, hbc⟩ := mem_expandBlocks_exists ch e (ch b.id) b2 hb2
      have hcx : c.id ∈ chIds ch b.id := List.mem_map_of_mem Block.id hc
      rcases ih c b2.id (List.mem_map_of_mem Block.id hbc) with h1 | h2 | ⟨z, hz, hiz⟩
      · exact Or.inr (Or.inr ⟨c.id, Under.base hcx, Or.inl h1⟩)
      · exact Or.inr (Or.inr ⟨c.id, Under.base hcx, Or.inr h2⟩)
      · exact Or.inr (Or.inr ⟨z, Under.step hcx hz, hiz⟩)

/-- Every id in the expansion of the fetched children of `p` is an id of
`p`'s subtree, possibly as a marker. -/
theorem under_of_mem_expandBlocks (ch : String → List Block) (e : Nat)
    (p i : String) (hi : i ∈ (expandBlocks ch e (ch p)).map Block.id) :
    ∃ z, Under ch p z ∧ (i = z ∨ i = markerId z) := by
  obtain ⟨b2, hb2, rfl⟩ := List.mem_map.mp hi
  obtain ⟨c, hc, hbc⟩ := mem_expandBlocks_exists ch e (ch p) b2 hb2
  have hcx : c.id ∈ chIds ch p := List.mem_map_of_mem Block.id hc
  rcases expandBlock_id_mem ch e c b2.id (List.mem_map_of_mem Block.id hbc)
    with h1 | h2 | ⟨z, hz, hiz⟩
  · exact ⟨c.id, Under.base hcx, Or.inl h1⟩
  · exact ⟨c.id, Under.base hcx, Or.inr h2⟩
  · exact ⟨z, Under.step hcx hz, hiz⟩

/-- Expanding a run of blocks drawn from one upstream child list with
pairwise distinct ids yields pairwise distinct ids, for a tree-shaped
upstream: per-list distinct ids (`HN`), disjoint child lists of distinct
parents (`HD`), a rank decreasing into children (`Hrank`), and no
upstream id shaped like a marker id (`HM`). -/
theorem expandBlocks_nodup (ch : String → List Block) (rank : String → Nat)
    (HN : ∀ x, (chIds ch x).Nodup)
    (HD : ∀ p q, p ≠ q → ∀ i, i ∈ chIds ch p → i ∈ chIds ch q → False)
    (Hrank : ∀ x i, i ∈ chIds ch x → rank i < rank x)
    (HM : ∀ x i, i ∈ chIds ch x → ∀ y, i ≠ markerId y) :
    ∀ d x l, (∀ b ∈ l, b ∈ ch x) → (l.map Block.id).Nodup →
      ((expandBlocks ch d l).map Block.id).Nodup := by
  intro d
  induction d using Nat.strong_induction_on with
  | _ d ihd =>
    intro x l
    induction l with
    | nil =>
      intro _ _
      rw [expandBlocks_nil]
      exact List.nodup_nil
    | cons b rest ihl =>
      intro hmem hnodup
      rw [expandBlocks_cons, List.map_append]
      rw [List.map_cons, List.nodup_cons] at hnodup
      have hbx : b ∈ ch x := hmem b (List.mem_cons_self _ _)
      have hbid : b.id ∈ chIds ch x := List.mem_map_of_mem Block.id hbx
      refine List.nodup_append.mpr ⟨?_, ?_, ?_⟩
      · cases d with
        | zero =>
          rw [expandBlock_zero]
          simp
        | succ e =>
          rw [expandBlock_succ]
          cases hhc : b.has_children with
          | false =>
            rw [if_neg Bool.false_ne_true]
            simp
          | true =>
            rw [if_pos rfl, List.map_cons, List.map_cons]
            refine List.nodup_cons.mpr ⟨?_, List.nodup_cons.mpr ⟨?_, ?_⟩⟩
            · intro hmem2
              rcases List.mem_cons.mp hmem2 with h1 | h2
              · exact HM x b.id hbid b.id h1
              · obtain ⟨z, hu, hz⟩ := under_of_mem_expandBlocks ch e b.id b.id h2
                rcases hz with hiz | hiz
                · rw [hiz] at hu
                  exact Nat.lt_irrefl _ (under_rank ch rank Hrank _ _ hu)
                · exact HM x b.id hbid z hiz
            · intro hmem2
              obtain ⟨z, hu, hz⟩ :=
                under_of_mem_expandBlocks ch e b.id (Block.children_marker b.id).id hmem2
              rcases hz with hiz | hiz
              · exact (under_not_marker ch HM _ _ hu b.id) hiz.symm
              · have hz2 : b.id = z := markerId_inj _ _ hiz
                rw [← hz2] at hu
                exact Nat.lt_irrefl _ (under_rank ch rank Hrank _ _ hu)
            · exact ihd e (Nat.lt_succ_self e) b.id (ch b.id) (fun c hc => hc) (HN b.id)
      · exact ihl (fun c hc => hmem c (List.mem_cons_of_mem _ hc)) hnodup.2
      · intro i hi1 hi2
        have tri1 := expandBlock_id_mem ch d b i hi1
        obtain ⟨w2, hw2, hiw2⟩ := List.mem_map.mp hi2
        obtain ⟨b2, hb2rest, hw2b2⟩ := mem_expandBlocks_exists ch d rest w2 hw2
        have tri2 := expandBlock_id_mem ch d b2 i
          (hiw2 ▸ List.mem_map_of_mem Block.id hw2b2)
        have hb2x : b2 ∈ ch x := hmem b2 (List.mem_cons_of_mem _ hb2rest)
        have hb2id : b2.id ∈ chIds ch x := List.mem_map_of_mem Block.id hb2x
        have hne : b.id ≠ b2.id := by
          intro h
          exact hnodup.1 (h ▸ List.mem_map_of_mem Block.id hb2rest)
        rcases tri1 with h1 | h1 | ⟨z1, hu1, hz1⟩
        · rcases tri2 with h2 | h2 | ⟨z2, hu2, hz2⟩
          · exact hne (h1.symm.trans h2)
          · exact HM x b.id hbid b2.id (h1.symm.trans h2)
          · rcases hz2 with hiz2 | hiz2
            · refine under_crosses ch rank HD Hrank x b2.id z2 hb2id hu2 ?_
              rw [← hiz2, h1]
              exact hbid
            · exact HM x b.id hbid z2 (h1.symm.trans hiz2)
        · rcases tri2 with h2 | h2 | ⟨z2, hu2, hz2⟩
          · exact HM x b2.id hb2id b.id (h2.symm.trans h1)
          · exact hne (markerId_inj _ _ (h1.symm.trans h2))
          · rcases hz2 with hiz2 | hiz2
            · exact (under_not_marker ch HM _ _ hu2 b.id) (hiz2.symm.trans h1)
            · have hz2e : b.id = z2 := markerId_inj _ _ (h1.symm.trans hiz2)
              refine under_crosses ch rank HD Hrank x b2.id z2 hb2id hu2 ?_
              rw [← hz2e]
              exact hbid
        · rcases tri2 with h2 | h2 | ⟨z2, hu2, hz2⟩
          · rcases hz1 with hiz1 | hiz1
            · refine under_crosses ch rank HD Hrank x b.id z1 hbid hu1 ?_
              rw [← hiz1, h2]
              exact hb2id
            · exact HM x b2.id hb2id z1 (h2.symm.trans hiz1)
          · rcases hz1 with hiz1 | hiz1
            · exact (under_not_marker ch HM _ _ hu1 b2.id) (hiz1.symm.trans h2)
            · have hz1e : b2.id = z1 := markerId_inj _ _ (h2.symm.trans hiz1)
              refine under_crosses ch rank HD Hrank x b.id z1 hbid hu1 ?_
              rw [← hz1e]
              exact hb2id
          · have hnu1 : ¬ Under ch b.id b2.id :=
              not_under_of_sibling ch rank HD Hrank x _ _ hbid hb2id
            have hnu2 : ¬ Under ch b2.id b.id :=
              not_under_of_sibling ch rank HD Hrank x _ _ hb2id hbid
            have key : ∀ z, Under ch b.id z → Under ch b2.id z → False :=
              under_disjoint ch rank HD Hrank (rank b.id + rank b2.id) b.id b2.id
                (Nat.le_refl _) hne hnu1 hnu2
            rcases hz1 with hiz1 | hiz1 <;> rcases hz2 with hiz2 | hiz2
            · have hz12 : z1 = z2 := hiz1.symm.trans hiz2
              have hu2b : Under ch b2.id z1 := by
                rw [hz12]
                exact hu2
              exact key z1 hu1 hu2b
            · exact (under_not_marker ch HM _ _ hu1 z2) (hiz1.symm.trans hiz2)
            · exact (under_not_marker ch HM _ _ hu2 z1) (hiz2.symm.trans hiz1)
            · have hz12 : z1 = z2 := markerId_inj _ _ (hiz1.symm.trans hiz2)
              have hu2b : Under ch b2.id z1 := by
                rw [hz12]
                exact hu2
              exact key z1 hu1 hu2b

/-! ## Claim theorems -/

/-- C9: JSON-encoding a `SyncJob` as the external-broker enqueue path does
(`serde_json::to_string`, queue.rs:92) and decoding it as the broker
consumer does (`serde_json::from_str`, queue.rs:173) yields the original
job, for every job value. -/
theorem syncJob_encode_decode_roundtrip (job : SyncJob) :
    decodeSyncJob (encodeSyncJob job) = some job := by
  cases job <;> rfl

/-- C8 (counterexample): with `sync.interval_seconds = 0` the periodic
task is still spawned (main.rs:92 calls `spawn_periodic_sync`
unconditionally) and ticks every 1 second; moreover a tick runs
`sync::sync_all` directly rather than enqueueing `ScanDataSource` jobs
(scheduler.rs:13) — so zero does not disable periodic rescanning and no
per-pair jobs are enqueued. -/
theorem periodic_sync_spawned_at_zero_cex :
    main_spawns_periodic_sync 0 = true
    ∧ spawn_periodic_sync_period 0 = 1
    ∧ scheduler_tick_action ≠ SchedulerTickAction.enqueueScanJobs := by
  refine ⟨rfl, rfl, ?_⟩
  decide

/-- C8 (amended): the periodic task is spawned at startup unconditionally
— for every configured `sync.interval_seconds`, zero included — and fires
every `max(interval, 1)` seconds; each tick invokes a full sync
(`sync_all`) directly instead of enqueueing `ScanDataSource` jobs. -/
theorem periodic_sync_unconditional (interval_seconds : Nat) :
    main_spawns_periodic_sync interval_seconds = true
    ∧ spawn_periodic_sync_period interval_seconds = Nat.max interval_seconds 1
    ∧ (0 < interval_seconds → spawn_periodic_sync_period interval_seconds = interval_seconds)
    ∧ 0 < spawn_periodic_sync_period interval_seconds
    ∧ scheduler_tick_action = SchedulerTickAction.runSyncAll := by
  refine ⟨rfl, rfl, ?_, ?_, rfl⟩
  · intro h
    exact Nat.max_eq_left h
  · exact Nat.lt_of_lt_of_le Nat.zero_lt_one (Nat.le_max_right _ _)

/-- C8 (witness): the amended statement at `interval_seconds = 5`. -/
theorem periodic_sync_unconditional_witness :
    main_spawns_periodic_sync 5 = true ∧ spawn_periodic_sync_period 5 = 5 := by
  have h := periodic_sync_unconditional 5
  exact ⟨h.1, h.2.2.1 (by decide)⟩

/-- C7 (counterexample): a page whose parent exposes a `data_source_id`
listed in a configured binding's data sources but no `database_id` is
dropped as "not under a database" by `sync_page_by_id` (sync.rs:15-18),
although the claimed dataSources-first matching would choose the binding
`dbA`. -/
theorem sync_page_by_id_ignores_data_sources_cex :
    sync_page_by_id
        (Except.ok { parent_type := "data_source_id", database_id := none,
                     data_source_id := some "ds1" })
        [{ id := "dbA", data_sources := [{ id := "ds1" }] }]
        (fun _ => Except.ok ())
      = Except.ok SyncPageByIdOutcome.notUnderDatabase
    ∧ claim_binding_choice
        { parent_type := "data_source_id", database_id := none,
          data_source_id := some "ds1" }
        [{ id := "dbA", data_sources := [{ id := "ds1" }] }]
      = some { id := "dbA", data_sources := [{ id := "ds1" }] } := by
  exact ⟨rfl, rfl⟩

/-- C7 (amended): `sync_page_by_id` resolves only the parent's
`database_id` and chooses the binding by matching that id; a parent
without one, or whose id matches no binding, is logged and dropped with
success (so `process_job` does not retry it); when the binding is found
the page is synced against it; and a processing error makes `process_job`
requeue the same `SyncPageById` job after 10 seconds. -/
theorem sync_page_by_id_binding_by_database_id
    (parent : PageParent) (databases : List DatabaseState)
    (runSyncPage : DatabaseState → Except String Unit) (page_id : String) :
    (parent.database_id = none →
      sync_page_by_id (Except.ok parent) databases runSyncPage
        = Except.ok SyncPageByIdOutcome.notUnderDatabase)
    ∧ (∀ dbid, parent.database_id = some dbid →
        databases.find? (fun db => db.id == dbid) = none →
        sync_page_by_id (Except.ok parent) databases runSyncPage
          = Except.ok SyncPageByIdOutcome.databaseNotConfigured)
    ∧ (∀ dbid db, parent.database_id = some dbid →
        databases.find? (fun db => db.id == dbid) = some db →
        runSyncPage db = Except.ok () →
        sync_page_by_id (Except.ok parent) databases runSyncPage
          = Except.ok (SyncPageByIdOutcome.delegated db.id))
    ∧ (∀ e, process_job_syncPageById (Except.error e) page_id
          = (Except.error e, [(SyncJob.syncPageById page_id, 10)]))
    ∧ (∀ o, process_job_syncPageById (Except.ok o) page_id = (Except.ok (), [])) := by
  refine ⟨?_, ?_, ?_, fun e => rfl, fun o => rfl⟩
  · intro h
    simp [sync_page_by_id, get_page_parent_database_id, h]
  · intro dbid h hfind
    simp [sync_page_by_id, get_page_parent_database_id, h, hfind]
  · intro dbid db h hfind hrun
    simp [sync_page_by_id, get_page_parent_database_id, h, hfind, hrun]

/-- C7 (witness): the amended statement at a concrete state — a parent
under database `dbA` that is configured, and the requeue equations. -/
theorem sync_page_by_id_binding_by_database_id_witness :
    sync_page_by_id (Except.ok { database_id := some "dbA" })
        [{ id := "dbA", data_sources := [{ id := "ds1" }] }] (fun _ => Except.ok ())
      = Except.ok (SyncPageByIdOutcome.delegated "dbA")
    ∧ process_job_syncPageById (Except.error "boom") "p1"
      = (Except.error "boom", [(SyncJob.syncPageById "p1", 10)]) := by
  have h := sync_page_by_id_binding_by_database_id
    { database_id := some "dbA" }
    [{ id := "dbA", data_sources := [{ id := "ds1" }] }]
    (fun _ => Except.ok ()) "p1"
  exact ⟨h.2.2.1 "dbA" { id := "dbA", data_sources := [{ id := "ds1" }] } rfl rfl rfl,
         h.2.2.2.1 "boom"⟩

/-- C5: a rich-text segment with `annotations.code == true` renders as its
plain text in backticks with every other style skipped (only the `href`
wrapper still applies); with `code == false` the bold, italic,
strikethrough and underline wrappers apply in that order, each wrapping
the previous, and `href` wraps the result last; in particular the segment
`plain_text:"A", bold, italic, href:"u"` renders exactly `[***A***](u)`. -/
theorem render_rich_text_item_style_order :
    (∀ t b i s u h, render_rich_text_item
        { plain_text := t,
          annotations := some { bold := b, italic := i, strikethrough := s,
                                underline := u, code := true },
          href := h }
      = (match h with
         | some l => "[" ++ ("`" ++ t ++ "`") ++ "](" ++ l ++ ")"
         | none => "`" ++ t ++ "`"))
    ∧ (∀ t, render_rich_text_item
        { plain_text := t,
          annotations := some { bold := true, italic := true, strikethrough := true,
                                underline := true, code := false } }
      = "<u>" ++ ("~~" ++ ("*" ++ ("**" ++ t ++ "**") ++ "*") ++ "~~") ++ "</u>")
    ∧ (∀ t l, render_rich_text_item
        { plain_text := t,
          annotations := some { bold := true, italic := true }, href := some l }
      = "[" ++ ("*" ++ ("**" ++ t ++ "**") ++ "*") ++ "](" ++ l ++ ")")
    ∧ render_rich_text_item
        { plain_text := "A", annotations := some { bold := true, italic := true },
          href := some "u" }
      = "[***A***](u)" := by
  refine ⟨?_, fun t => rfl, fun t l => rfl, rfl⟩
  intro t b i s u h
  cases h <;> rfl

/-- C1: with a secret configured, signature verification accepts exactly
when the hex-decoded `X-Notion-Signature` value (surrounding whitespace
removed by the HTTP layer, optional `sha256=` prefix stripped) equals
`HMAC-SHA256(secret, raw body bytes)`, for every body, every secret and
every HMAC primitive; a missing header is rejected, and in the handler a
missing or mismatching signature yields HTTP 401 on any payload that is
not the verification handshake. -/
theorem verify_signature_iff_hmac_matches
    (hmacSha256 : String → List Nat → List Nat) (h : String) (body : List Nat)
    (secret : String) (hws : rustTrim h = h) :
    (verify_signature hmacSha256 (some h) body secret = true ↔
      hexDecode (stripSha256 h) = some (hmacSha256 secret body))
    ∧ verify_signature hmacSha256 none body secret = false
    ∧ (∀ parse parseRfc3339 max_age databases now payload,
        parse body = some payload →
        (payload.get "verification_token").bind Json.asStr = none →
        ∀ header, verify_signature hmacSha256 header body secret = false →
        handle_webhook parse parseRfc3339 hmacSha256 (some secret) max_age databases
            header body now
          = ⟨401, false, none⟩) := by
  refine ⟨?_, rfl, ?_⟩
  · have hv : verify_signature hmacSha256 (some h) body secret
        = (match hexDecode (stripSha256 (rustTrim h)) with
           | none => false
           | some bytes => bytes == hmacSha256 secret body) := rfl
    rw [hws] at hv
    rw [hv]
    cases hd : hexDecode (stripSha256 h) with
    | none => exact iff_of_false (fun h1 => by cases h1) (fun h2 => by cases h2)
    | some bytes =>
      show (bytes == hmacSha256 secret body) = true ↔ _
      constructor
      · intro h1
        exact congrArg some (eq_of_beq h1)
      · intro h2
        have h3 : bytes = hmacSha256 secret body := by injection h2
        exact beq_of_eq h3
  · intro parse parseRfc3339 max_age databases now payload hparse htok header hver
    have hv2 : handle_webhook_auth hmacSha256 (some secret) header body = false := hver
    unfold handle_webhook
    rw [hparse]
    show (if ((payload.get "verification_token").bind Json.asStr).isSome then
            (⟨200, true, none⟩ : WebhookOutcome)
          else if handle_webhook_auth hmacSha256 (some secret) header body then
            handle_webhook_fresh parseRfc3339 max_age now databases payload
          else ⟨401, false, none⟩) = ⟨401, false, none⟩
    rw [htok, hv2]
    rfl

/-- C1 (witness): a concrete accepted signature and a concrete 401. -/
theorem verify_signature_iff_hmac_matches_witness :
    verify_signature (fun _ _ => [0]) (some "00") [] "" = true
    ∧ handle_webhook (fun _ => some (Json.obj [])) (fun _ => none) (fun _ _ => [0])
        (some "") 300 [] none [] 0 = ⟨401, false, none⟩ := by
  have H := verify_signature_iff_hmac_matches (fun _ _ => [0]) "00" [] "" (by decide)
  refine ⟨H.1.mpr (by decide), ?_⟩
  exact H.2.2 (fun _ => some (Json.obj [])) (fun _ => none) 300 [] 0 (Json.obj [])
    rfl rfl none H.2.1

/-- C3 (counterexample): a payload containing `verification_token` with a
non-string value is not acknowledged with 200 `{ok:true}`
(webhook.rs:30-33 requires `as_str` to succeed); with no other
recognizable field it falls through every check and gets 400. -/
theorem webhook_nonstring_token_cex :
    handle_webhook (fun _ => some (Json.obj [("verification_token", Json.num 5)]))
        (fun _ => none) (fun _ _ => []) none 300 [] none [] 0
      = ⟨400, false, none⟩
    ∧ (⟨400, false, none⟩ : WebhookOutcome) ≠ ⟨200, true, none⟩ := by
  exact ⟨rfl, by decide⟩

/-- C3 (amended): the handler applies its checks in order with the stated
responses — unparseable body 400; a *string-valued* `verification_token`
200 `{ok:true}` before signature verification; with authentication
passing, a stale timestamp 200 with no work; otherwise extraction tries
`page_id`, then `data_source_id`, then `database_id`, dispatching only
the first match; an id matching no binding 200 with no work; none of the
three 400. -/
theorem handle_webhook_check_order
    (parse : List Nat → Option Json) (parseRfc3339 : String → Option Int)
    (hmacSha256 : String → List Nat → List Nat) (webhook_secret : Option String)
    (max_age : Nat) (databases : List DatabaseState) (header : Option String)
    (body : List Nat) (now : Int) :
    (parse body = none →
      handle_webhook parse parseRfc3339 hmacSha256 webhook_secret max_age databases
          header body now = ⟨400, false, none⟩)
    ∧ (∀ payload tok, parse body = some payload →
        (payload.get "verification_token").bind Json.asStr = some tok →
        handle_webhook parse parseRfc3339 hmacSha256 webhook_secret max_age databases
            header body now = ⟨200, true, none⟩)
    ∧ (∀ payload t, parse body = some payload →
        (payload.get "verification_token").bind Json.asStr = none →
        handle_webhook_auth hmacSha256 webhook_secret header body = true →
        extract_event_time parseRfc3339 payload = some t →
        (if now ≥ t then now - t else t - now) > (max_age : Int) →
        handle_webhook parse parseRfc3339 hmacSha256 webhook_secret max_age databases
            header body now = ⟨200, false, none⟩)
    ∧ (∀ payload, parse body = some payload →
        (payload.get "verification_token").bind Json.asStr = none →
        handle_webhook_auth hmacSha256 webhook_secret header body = true →
        (∀ t, extract_event_time parseRfc3339 payload = some t →
          (if now ≥ t then now - t else t - now) ≤ (max_age : Int)) →
        handle_webhook parse parseRfc3339 hmacSha256 webhook_secret max_age databases
            header body now = handle_webhook_dispatch databases payload)
    ∧ (∀ payload pid, extract_page_id payload = some pid →
        handle_webhook_dispatch databases payload
          = ⟨200, false, some (.syncPageById pid)⟩)
    ∧ (∀ payload ds, extract_page_id payload = none →
        extract_data_source_id payload = some ds →
        handle_webhook_dispatch databases payload
          = (match databases.find? (fun db => db.data_sources.any (fun d => d.id == ds)) with
             | none => ⟨200, false, none⟩
             | some db => ⟨200, false, some (.scanDataSource db ds)⟩))
    ∧ (∀ payload dbid, extract_page_id payload = none →
        extract_data_source_id payload = none →
        extract_database_id payload = some dbid →
        handle_webhook_dispatch databases payload
          = (match databases.find? (fun db => db.id == dbid) with
             | none => ⟨200, false, none⟩
             | some db => ⟨200, false, some (.scanDatabase db)⟩))
    ∧ (∀ payload, extract_page_id payload = none →
        extract_data_source_id payload = none →
        extract_database_id payload = none →
        handle_webhook_dispatch databases payload = ⟨400, false, none⟩) := by
  refine ⟨?_, ?_, ?_, ?_, ?_, ?_, ?_, ?_⟩
  · intro hparse
    unfold handle_webhook
    rw [hparse]
  · intro payload tok hparse htok
    unfold handle_webhook
    rw [hparse]
    show (if ((payload.get "verification_token").bind Json.asStr).isSome then
            (⟨200, true, none⟩ : WebhookOutcome)
          else if handle_webhook_auth hmacSha256 webhook_secret header body then
            handle_webhook_fresh parseRfc3339 max_age now databases payload
          else ⟨401, false, none⟩) = ⟨200, true, none⟩
    rw [htok]
    rfl
  · intro payload t hparse htok hauth hts hstale
    have hfr : handle_webhook_fresh parseRfc3339 max_age now databases payload
        = ⟨200, false, none⟩ := by
      unfold handle_webhook_fresh
      rw [hts]
      show (if (if now ≥ t then now - t else t - now) > (max_age : Int) then
              (⟨200, false, none⟩ : WebhookOutcome)
            else handle_webhook_dispatch databases payload) = ⟨200, false, none⟩
      rw [if_pos hstale]
    unfold handle_webhook
    rw [hparse]
    show (if ((payload.get "verification_token").bind Json.asStr).isSome then
            (⟨200, true, none⟩ : WebhookOutcome)
          else if handle_webhook_auth hmacSha256 webhook_secret header body then
            handle_webhook_fresh parseRfc3339 max_age now databases payload
          else ⟨401, false, none⟩) = ⟨200, false, none⟩
    rw [htok, hauth, hfr]
    rfl
  · intro payload hparse htok hauth hfresh
    have hdisp : handle_webhook_fresh parseRfc3339 max_age now databases payload
        = handle_webhook_dispatch databases payload := by
      cases hts : extract_event_time parseRfc3339 payload with
      | none =>
        unfold handle_webhook_fresh
        rw [hts]
      | some t =>
        have hle := hfresh t hts
        unfold handle_webhook_fresh
        rw [hts]
        show (if (if now ≥ t then now - t else t - now) > (max_age : Int) then
                (⟨200, false, none⟩ : WebhookOutcome)
              else handle_webhook_dispatch databases payload)
            = handle_webhook_dispatch databases payload
        rw [if_neg (not_lt.mpr hle)]
    unfold handle_webhook
    rw [hparse]
    show (if ((payload.get "verification_token").bind Json.asStr).isSome then
            (⟨200, true, none⟩ : WebhookOutcome)
          else if handle_webhook_auth hmacSha256 webhook_secret header body then
            handle_webhook_fresh parseRfc3339 max_age now databases payload
          else ⟨401, false, none⟩) = handle_webhook_dispatch databases payload
    rw [htok, hauth, hdisp]
    rfl
  · intro payload pid hpid
    unfold handle_webhook_dispatch
    rw [hpid]
  · intro payload ds hpid hds
    unfold handle_webhook_dispatch
    rw [hpid, hds]
  · intro payload dbid hpid hds hdb
    unfold handle_webhook_dispatch
    rw [hpid, hds, hdb]
  · intro payload hpid hds hdb
    unfold handle_webhook_dispatch
    rw [hpid, hds, hdb]

/-- C3 (witness): the amended behaviors at concrete inputs — a
string-valued handshake token acked with 200, and an unrecognizable
payload answered 400. -/
theorem handle_webhook_check_order_witness :
    handle_webhook (fun _ => some (Json.obj [("verification_token", Json.str "t1")]))
        (fun _ => none) (fun _ _ => []) none 300 [] none [] 0 = ⟨200, true, none⟩
    ∧ handle_webhook_dispatch [] (Json.obj []) = ⟨400, false, none⟩ := by
  have H := handle_webhook_check_order
    (fun _ => some (Json.obj [("verification_token", Json.str "t1")]))
    (fun _ => none) (fun _ _ => []) none 300 [] none [] 0
  exact ⟨H.2.1 (Json.obj [("verification_token", Json.str "t1")]) "t1" rfl rfl,
         H.2.2.2.2.2.2.2 (Json.obj []) rfl rfl rfl⟩

/-- C10: a `timestamp` field that is present but not a JSON string, or a
string the RFC-3339 parser rejects, makes `extract_event_time` yield
nothing, so the staleness check is skipped: no 400, no stale drop, and
processing continues into id extraction and dispatch exactly as if the
payload carried no `timestamp` field. -/
theorem webhook_unparseable_timestamp_skips_staleness
    (parseRfc3339 : String → Option Int) (databases : List DatabaseState)
    (payload v : Json) (max_age : Nat) (now : Int)
    (hget : payload.get "timestamp" = some v)
    (hbad : Json.asStr v = none ∨ ∀ s, v = Json.str s → parseRfc3339 s = none) :
    extract_event_time parseRfc3339 payload = none
    ∧ handle_webhook_fresh parseRfc3339 max_age now databases payload
        = handle_webhook_dispatch databases payload
    ∧ handle_webhook_fresh parseRfc3339 max_age now databases payload
        = handle_webhook_fresh parseRfc3339 max_age now databases
            (payload.removeKey "timestamp") := by
  have hext : extract_event_time parseRfc3339 payload = none := by
    unfold extract_event_time
    rw [hget]
    cases v with
    | str s =>
      rcases hbad with hb | hb
      · simp [Json.asStr] at hb
      · simpa [Json.asStr] using hb s rfl
    | null => rfl
    | bool b => rfl
    | num n => rfl
    | arr l => rfl
    | obj f => rfl
  have hext2 : extract_event_time parseRfc3339 (payload.removeKey "timestamp") = none := by
    unfold extract_event_time
    rw [Json.get_removeKey_self]
    rfl
  refine ⟨hext, ?_, ?_⟩
  · simp [handle_webhook_fresh, hext]
  · simp [handle_webhook_fresh, hext, hext2, handle_webhook_dispatch_removeKey_timestamp]

/-- C10 (witness): a numeric `timestamp` is ignored and the page event is
still dispatched. -/
theorem webhook_unparseable_timestamp_skips_staleness_witness :
    extract_event_time (fun _ => none)
        (Json.obj [("timestamp", Json.num 3), ("page_id", Json.str "p1")]) = none
    ∧ handle_webhook_fresh (fun _ => none) 300 0 []
        (Json.obj [("timestamp", Json.num 3), ("page_id", Json.str "p1")])
      = ⟨200, false, some (WebhookAction.syncPageById "p1")⟩ := by
  have H := webhook_unparseable_timestamp_skips_staleness (fun _ => none) []
    (Json.obj [("timestamp", Json.num 3), ("page_id", Json.str "p1")])
    (Json.num 3) 300 0 rfl (Or.inl rfl)
  refine ⟨H.1, ?_⟩
  rw [H.2.1]
  rfl

/-- C2 (counterexample): the table of the claim's example —
`table{width=2, col_header=true, row_header=false}` with rows
`[["H1","H2"],["a","b"]]` — does not render as
`"| H1 | H2 |\n| --- | --- |\n| a | b |\n\n"`: the code writes no space
after each line's leading pipe (render.rs:446-448, 457-459). -/
theorem table_example_cex :
    (render_blocks_part [
      { id := "t1", block_type := "table", table := some ⟨2, true, false⟩ },
      { id := "r1", block_type := "table_row",
        table_row := some ⟨[[{ plain_text := "H1" }], [{ plain_text := "H2" }]]⟩ },
      { id := "r2", block_type := "table_row",
        table_row := some ⟨[[{ plain_text := "a" }], [{ plain_text := "b" }]]⟩ }]).out
      ≠ "| H1 | H2 |\n| --- | --- |\n| a | b |\n\n" := by
  intro hbad
  have hout : (render_blocks_part [
      { id := "t1", block_type := "table", table := some ⟨2, true, false⟩ },
      { id := "r1", block_type := "table_row",
        table_row := some ⟨[[{ plain_text := "H1" }], [{ plain_text := "H2" }]]⟩ },
      { id := "r2", block_type := "table_row",
        table_row := some ⟨[[{ plain_text := "a" }], [{ plain_text := "b" }]]⟩ }]).out
      = "|H1 | H2 |\n|--- | --- |\n|a | b |\n\n" := rfl
  rw [hout] at hbad
  exact absurd hbad (by decide)

/-- C2 (amended): a table with no rows emits nothing; a table with rows
emits at close a header line that is exactly row 0 padded to `W =
max(declared width, longest row length)` with empty cells rendered as a
single space when `has_column_header`, else a row of `W` single spaces;
then a separator of `W` `---` cells; then exactly the remaining rows
padded to `W` cells each (first cell bolded when `has_row_header`),
ending with a blank line — each line as `|cell | cell |` with no space
after the leading pipe; in particular the example table renders exactly
`"|H1 | H2 |\n|--- | --- |\n|a | b |\n\n"`. -/
theorem table_render_at_close :
    flush_table none = ""
    ∧ (∀ w hc hr, flush_table (some ⟨[], w, hc, hr⟩) = "")
    ∧ (∀ st : TableState, st.rows ≠ [] →
        ∃ (header : List String) (body : List (List String)),
          flush_table (some st)
            = table_line header ++ table_line (List.replicate (flush_width st) "---")
              ++ String.join (body.map table_line) ++ "\n"
          ∧ header = (if st.has_column_header then
                st.rows.headD []
                  ++ List.replicate (flush_width st - (st.rows.headD []).length) ""
              else List.replicate (flush_width st) "").map
              (fun cell => if cell = "" then " " else cell)
          ∧ body = ((if st.has_column_header then st.rows.drop 1 else st.rows).map
                (fun row => row ++ List.replicate (flush_width st - row.length) "")).map
              (fun row => if st.has_row_header then bold_first_cell row else row)
          ∧ header.length = flush_width st
          ∧ (∀ r ∈ body, r.length = flush_width st)
          ∧ (st.has_column_header = true → body.length + 1 = st.rows.length)
          ∧ (st.has_column_header = false →
              body.length = st.rows.length
              ∧ header = List.replicate (flush_width st) " "))
    ∧ flush_table (some ⟨[["H1", "H2"], ["a", "b"]], 2, true, false⟩)
        = "|H1 | H2 |\n|--- | --- |\n|a | b |\n\n"
    ∧ (render_blocks_part [
        { id := "t1", block_type := "table", table := some ⟨2, true, false⟩ },
        { id := "r1", block_type := "table_row",
          table_row := some ⟨[[{ plain_text := "H1" }], [{ plain_text := "H2" }]]⟩ },
        { id := "r2", block_type := "table_row",
          table_row := some ⟨[[{ plain_text := "a" }], [{ plain_text := "b" }]]⟩ }]).out
        = "|H1 | H2 |\n|--- | --- |\n|a | b |\n\n" := by
  refine ⟨rfl, fun w hc hr => rfl, ?_, rfl, rfl⟩
  intro st hne
  obtain ⟨rows, w, hc, hr⟩ := st
  cases rows with
  | nil => exact absurd rfl hne
  | cons r0 rest =>
    cases hc with
    | true =>
      refine ⟨((r0 ++ List.replicate (flush_width ⟨r0 :: rest, w, true, hr⟩ - r0.length) "").map
          (fun cell => if cell = "" then " " else cell)),
        ((rest.map (fun row =>
            row ++ List.replicate (flush_width ⟨r0 :: rest, w, true, hr⟩ - row.length) "")).map
          (fun row => if hr then bold_first_cell row else row)), ?_, rfl, rfl,
        ?_, ?_, ?_, ?_⟩
      · show flush_table (some ⟨r0 :: rest, w, true, hr⟩) = _
        simp only [flush_table, List.isEmpty_cons, List.map_cons, List.headD_cons,
          List.drop_succ_cons, List.drop_zero, List.map_map,
          if_neg Bool.false_ne_true, eq_self_iff_true, if_true]
        rfl
      · rw [List.length_map]
        exact padded_length r0 _ (row_le_flush_width ⟨r0 :: rest, w, true, hr⟩ r0
          (List.mem_cons_self _ _))
      · intro r hrm
        rcases List.mem_map.mp hrm with ⟨row, hrow, rfl⟩
        rcases List.mem_map.mp hrow with ⟨row0, hrow0, rfl⟩
        have hlen : (row0 ++ List.replicate
            (flush_width ⟨r0 :: rest, w, true, hr⟩ - row0.length) "").length
            = flush_width ⟨r0 :: rest, w, true, hr⟩ :=
          padded_length row0 _ (row_le_flush_width ⟨r0 :: rest, w, true, hr⟩ row0
            (List.mem_cons_of_mem _ hrow0))
        cases hr with
        | true => rw [if_pos rfl, bold_first_cell_length]; exact hlen
        | false => rw [if_neg Bool.false_ne_true]; exact hlen
      · intro _
        simp [List.length_map]
      · intro h
        exact Bool.noConfusion h
    | false =>
      have hblank : (List.replicate (flush_width ⟨r0 :: rest, w, false, hr⟩) "").map
          (fun cell => if cell = "" then " " else cell)
          = List.replicate (flush_width ⟨r0 :: rest, w, false, hr⟩) " " := by
        rw [List.map_replicate]
        rfl
      refine ⟨List.replicate (flush_width ⟨r0 :: rest, w, false, hr⟩) " ",
        (((r0 :: rest).map (fun row =>
            row ++ List.replicate (flush_width ⟨r0 :: rest, w, false, hr⟩ - row.length) "")).map
          (fun row => if hr then bold_first_cell row else row)),
        ?_, hblank.symm, rfl, ?_, ?_, ?_, ?_⟩
      · show flush_table (some ⟨r0 :: rest, w, false, hr⟩) = _
        simp only [flush_table, List.isEmpty_cons, List.map_map,
          if_neg Bool.false_ne_true]
        rw [← hblank]
        rfl
      · rw [List.length_replicate]
      · intro r hrm
        rcases List.mem_map.mp hrm with ⟨row, hrow, rfl⟩
        rcases List.mem_map.mp hrow with ⟨row0, hrow0, rfl⟩
        have hlen : (row0 ++ List.replicate
            (flush_width ⟨r0 :: rest, w, false, hr⟩ - row0.length) "").length
            = flush_width ⟨r0 :: rest, w, false, hr⟩ :=
          padded_length row0 _ (row_le_flush_width ⟨r0 :: rest, w, false, hr⟩ row0 hrow0)
        cases hr with
        | true => rw [if_pos rfl, bold_first_cell_length]; exact hlen
        | false => rw [if_neg Bool.false_ne_true]; exact hlen
      · intro h
        exact Bool.noConfusion h
      · intro _
        refine ⟨?_, rfl⟩
        simp [List.length_map]

/-- C2 (witness): the shape statement at the example table — the header
is exactly row 0 and the body exactly the remaining row. -/
theorem table_render_at_close_witness :
    ∃ (header : List String) (body : List (List String)),
      flush_table (some ⟨[["H1", "H2"], ["a", "b"]], 2, true, false⟩)
        = table_line header ++ table_line (List.replicate 2 "---")
          ++ String.join (body.map table_line) ++ "\n"
      ∧ header = ["H1", "H2"]
      ∧ body = [["a", "b"]]
      ∧ header.length = 2
      ∧ ∀ r ∈ body, r.length = 2 := by
  obtain ⟨header, body, heq, hhdr, hbdy, hh, hb, _, _⟩ :=
    table_render_at_close.2.2.1 ⟨[["H1", "H2"], ["a", "b"]], 2, true, false⟩ (by decide)
  refine ⟨header, body, heq, ?_, ?_, hh, hb⟩
  · rw [hhdr]
    rfl
  · rw [hbdy]
    rfl

/-- C6 (counterexample): a page property whose (un-renamed) key is
`_notion` overwrites the metadata entry in place
(`serde_yaml::Mapping::insert` replaces the value of an existing key), so
the front matter no longer contains `_notion.page_id` — the claim's
"page_id always" fails. -/
theorem front_matter_notion_overwritten_cex :
    front_matter_mapping
        { id := "p1", properties := [("_notion", PropertyValue.text "boom")] } [] none
      = [("_notion", Yaml.str "boom")]
    ∧ ∀ fields, Yaml.str "boom" ≠ Yaml.map fields := by
  exact ⟨rfl, fun fields h => Yaml.noConfusion h⟩

/-- C6 (amended): provided no emitted property's mapped key is `_notion`
and the emitted mapped keys are pairwise distinct, the front-matter
mapping is exactly `_notion` first — holding `page_id` always and
`database_id` exactly when the page's parent exposes one — followed by
the kept properties (those passing `property_includes` and mapping to a
non-empty key) with keys translated through the key map, in input order;
and when the upstream `BTreeMap` iterates properties in strictly
increasing key order, the emitted properties are in lexical order of
their original (pre-mapping) upstream key. -/
theorem front_matter_structure
    (metadata : PageMetadata) (key_map : List (String × String))
    (property_includes : Option (List String))
    (hno : ∀ kv ∈ front_matter_props_spec metadata.properties key_map property_includes,
        kv.1 ≠ "_notion")
    (hnodup : ((front_matter_props_spec metadata.properties key_map
        property_includes).map Prod.fst).Nodup) :
    front_matter_mapping metadata key_map property_includes
      = ("_notion", Yaml.map (("page_id", Yaml.str metadata.id) ::
          (match metadata.parent.database_id with
           | some dbid => [("database_id", Yaml.str dbid)]
           | none => [])))
        :: front_matter_props_spec metadata.properties key_map property_includes
    ∧ ((metadata.properties.map Prod.fst).Pairwise (fun a b => a < b) →
        ((metadata.properties.filter
            (front_matter_keeps key_map property_includes)).map Prod.fst).Pairwise
          (fun a b => a < b)) := by
  constructor
  · cases hdb : metadata.parent.database_id with
    | none =>
      have hstart : front_matter_mapping metadata key_map property_includes
          = metadata.properties.foldl (front_matter_step key_map property_includes)
              [("_notion", Yaml.map [("page_id", Yaml.str metadata.id)])] := by
        unfold front_matter_mapping
        rw [hdb]
        rfl
      rw [hstart, front_matter_foldl_eq key_map property_includes metadata.properties _
        ?_ hnodup]
      · rfl
      · intro kv hkv kv2 hkv2
        rcases List.mem_singleton.mp hkv2 with rfl
        exact hno kv hkv
    | some dbid =>
      have hstart : front_matter_mapping metadata key_map property_includes
          = metadata.properties.foldl (front_matter_step key_map property_includes)
              [("_notion", Yaml.map [("page_id", Yaml.str metadata.id),
                ("database_id", Yaml.str dbid)])] := by
        unfold front_matter_mapping
        rw [hdb]
        rfl
      rw [hstart, front_matter_foldl_eq key_map property_includes metadata.properties _
        ?_ hnodup]
      · rfl
      · intro kv hkv kv2 hkv2
        rcases List.mem_singleton.mp hkv2 with rfl
        exact hno kv hkv
  · intro hsorted
    exact List.Pairwise.sublist ((List.filter_sublist _).map Prod.fst) hsorted

/-- C6 (witness): a concrete page with parent database, a key map renaming
one property, and no includes filter. -/
theorem front_matter_structure_witness :
    front_matter_mapping
        { id := "p1", parent := { database_id := some "db1" },
          properties := [("A", PropertyValue.text "x"), ("B", PropertyValue.list ["y"])] }
        [("B", "Btitle")] none
      = [("_notion", Yaml.map [("page_id", Yaml.str "p1"), ("database_id", Yaml.str "db1")]),
         ("A", Yaml.str "x"), ("Btitle", Yaml.seq [Yaml.str "y"])] := by
  have H := front_matter_structure
    { id := "p1", parent := { database_id := some "db1" },
      properties := [("A", PropertyValue.text "x"), ("B", PropertyValue.list ["y"])] }
    [("B", "Btitle")] none (by decide) (by decide)
  rw [H.1]
  rfl

/-- C4: `fetch_blocks(root, 0)` is exactly the flat fetched child list,
with no synthetic markers inserted; with positive budget, a block with
`has_children` and remaining budget `d > 0` is immediately followed by
one synthetic `children` marker and then its fetched children each
carrying budget `d - 1`, while any other block passes through unchanged;
the input order embeds order-preservingly into the output (pre-order);
and for a tree-shaped upstream (per-list distinct ids, disjoint child
lists of distinct parents, a rank decreasing into children, no upstream
id shaped like a marker id) no block id appears twice in the result. -/
theorem fetch_blocks_tree_shape (ch : String → List Block) (root : String) :
    fetch_blocks ch root 0 = ch root
    ∧ (∀ d b, b.has_children = true →
        expandBlock ch (d + 1) b
          = b :: Block.children_marker b.id :: expandBlocks ch d (ch b.id))
    ∧ (∀ d b, b.has_children = false → expandBlock ch d b = [b])
    ∧ (∀ d l, List.Sublist l (expandBlocks ch d l))
    ∧ (∀ rank : String → Nat,
        (∀ x, (chIds ch x).Nodup) →
        (∀ p q, p ≠ q → ∀ i, i ∈ chIds ch p → i ∈ chIds ch q → False) →
        (∀ x i, i ∈ chIds ch x → rank i < rank x) →
        (∀ x i, i ∈ chIds ch x → ∀ y, i ≠ markerId y) →
        ∀ depth, ((fetch_blocks ch root depth).map Block.id).Nodup) := by
  refine ⟨rfl, ?_, ?_, ?_, ?_⟩
  · intro d b h
    rw [expandBlock_succ, if_pos h]
  · intro d b h
    cases d with
    | zero => exact expandBlock_zero ch b
    | succ e =>
      rw [expandBlock_succ, if_neg]
      rw [h]
      exact Bool.false_ne_true
  · intro d l
    induction l with
    | nil =>
      rw [expandBlocks_nil]
    | cons b rest ih =>
      rw [expandBlocks_cons]
      have hhead : List.Sublist [b] (expandBlock ch d b) := by
        cases d with
        | zero =>
          rw [expandBlock_zero]
        | succ e =>
          rw [expandBlock_succ]
          cases hhc : b.has_children with
          | false =>
            rw [if_neg Bool.false_ne_true]
          | true =>
            rw [if_pos rfl]
            exact List.Sublist.cons₂ b (List.nil_sublist _)
      have := List.Sublist.append hhead ih
      simpa using this
  · intro rank HN HD Hrank HM depth
    cases depth with
    | zero => exact HN root
    | succ e =>
      show ((expandBlocks ch (e + 1) (ch root)).map Block.id).Nodup
      exact expandBlocks_nodup ch rank HN HD Hrank HM (e + 1) root (ch root)
        (fun c hc => hc) (HN root)

/-- C4 (witness): the two-level upstream `chW` (root `r` → `a` → `z`)
satisfies every tree-shape hypothesis via `rankW`, and its expansion at
depth 2 is the duplicate-free pre-order sequence `a, a::children, z`. -/
theorem fetch_blocks_tree_shape_witness :
    fetch_blocks chW "r" 0 = chW "r"
    ∧ ((fetch_blocks chW "r" 2).map Block.id).Nodup
    ∧ (fetch_blocks chW "r" 2).map Block.id = ["a", "a::children", "z"] := by
  have key : ∀ p i, i ∈ chIds chW p → (p = "r" ∧ i = "a") ∨ (p = "a" ∧ i = "z") := by
    intro p i hip
    by_cases h1 : p = "r"
    · subst h1
      left
      refine ⟨rfl, ?_⟩
      have e : chIds chW "r" = ["a"] := rfl
      rw [e] at hip
      exact List.mem_singleton.mp hip
    · by_cases h2 : p = "a"
      · subst h2
        right
        refine ⟨rfl, ?_⟩
        have e : chIds chW "a" = ["z"] := rfl
        rw [e] at hip
        exact List.mem_singleton.mp hip
      · exfalso
        have e : chW p = [] := by
          unfold chW
          rw [if_neg h1, if_neg h2]
        unfold chIds at hip
        rw [e] at hip
        cases hip
  have heval : (fetch_blocks chW "r" 2).map Block.id = ["a", "a::children", "z"] := by
    show ((expandBlocks chW (1 + 1) (chW "r")).map Block.id) = _
    rw [show chW "r"
        = [{ id := "a", block_type := "paragraph", has_children := true }] from rfl]
    rw [expandBlocks_cons, expandBlocks_nil, expandBlock_succ, if_pos rfl]
    rw [show chW "a" = [{ id := "z", block_type := "paragraph" }] from rfl]
    show ((({ id := "a", block_type := "paragraph", has_children := true } : Block) ::
      Block.children_marker "a" ::
        expandBlocks chW (0 + 1) [{ id := "z", block_type := "paragraph" }]
      ++ []).map Block.id) = _
    rw [expandBlocks_cons, expandBlocks_nil, expandBlock_succ,
      if_neg Bool.false_ne_true]
    rfl
  have H := fetch_blocks_tree_shape chW "r"
  refine ⟨H.1, ?_, heval⟩
  apply H.2.2.2.2 rankW ?_ ?_ ?_ ?_ 2
  · intro x
    by_cases h1 : x = "r"
    · subst h1
      decide
    · by_cases h2 : x = "a"
      · subst h2
        decide
      · have e : chW x = [] := by
          unfold chW
          rw [if_neg h1, if_neg h2]
        unfold chIds
        rw [e]
        exact List.nodup_nil
  · intro p q hpq i hip hiq
    rcases key p i hip with ⟨hp, hi⟩ | ⟨hp, hi⟩ <;>
      rcases key q i hiq with ⟨hq, hi2⟩ | ⟨hq, hi2⟩
    · exact hpq (hp.trans hq.symm)
    · rw [hi] at hi2
      exact absurd hi2 (by decide)
    · rw [hi] at hi2
      exact absurd hi2 (by decide)
    · exact hpq (hp.trans hq.symm)
  · intro x i hix
    rcases key x i hix with ⟨hx, hi⟩ | ⟨hx, hi⟩ <;> subst hx <;> subst hi <;> decide
  · intro x i hix y heq
    rcases key x i hix with ⟨hx, hi⟩ | ⟨hx, hi⟩
    · subst hi
      have hlen := congrArg String.length heq
      rw [markerId, String.length_append] at hlen
      rw [show ("a" : String).length = 1 from rfl,
        show ("::children" : String).length = 10 from rfl] at hlen
      omega
    · subst hi
      have hlen := congrArg String.length heq
      rw [markerId, String.length_append] at hlen
      rw [show ("z" : String).length = 1 from rfl,
        show ("::children" : String).length = 10 from rfl] at hlen
      omega

end NotionSync
